import Mathlib

/-!
The code-generation pipeline of leetgo, package lang.

A shallow embedding of src/lang/base.go: the generator registry and its lookup
(GetGenerator), the content composer of the default generator (baseLang), and the
file materializer (Generate, tryWrite).

Go strings are embedded as Lean strings. Collaborators whose code lives outside
base.go (the Go standard library, viper, survey, hclog, package config, package
utils, package leetcode) are either fields of the records below or are modelled
next to the function that calls them.
-/

set_option autoImplicit false

namespace lang

/-! ## Data model -/

/-- Go error values, identified with their message. -/
abbrev Error := String

deriving instance DecidableEq for Except

/-- The part of leetcode.QuestionData that base.go reads: three fields and the results of
the accessor methods it calls. -/
structure QuestionData where
  QuestionFrontendId : String
  TitleSlug : String
  Difficulty : String
  Url : String
  IsContest : Bool
  ContestUrl : String
  GetTitle : String
  GetFormattedContent : String
  GetCodeSnippet : String → String

/-- FileOutput (base.go 125-128). -/
structure FileOutput where
  Path : String
  Content : String
deriving DecidableEq, Repr

/-- The tracked filesystem: regular files, path to bytes; the first entry of a path counts. -/
abbrev FileSystem := List (String × String)

/-- Calls to collaborators and log records, in the order the pipeline makes them. -/
inductive Event where
  | CheckLibrary
  | GenerateLibrary
  | GeneratorGenerate
  | tryWrite (file : String) (content : String)
  | IsExist (file : String)
  | AskOne (message : String)
  | CreateIfNotExists (file : String)
  | WriteFile (file : String) (content : String)
  | logError (path : String) (err : Error)
  | logInfo (file : String)
deriving DecidableEq, Repr

/-- The state the pipeline runs in: the filesystem and the record of what was called. -/
structure World where
  files : FileSystem
  trace : List Event
deriving DecidableEq, Repr

/-- Appends one event to the record. -/
def World.log (w : World) (e : Event) : World :=
  { w with trace := w.trace ++ [e] }

/-- Interface Generator (base.go 24-36). The identity accessors are values; CheckLibrary
reads the filesystem; GenerateLibrary and Generate may fail and may change the filesystem. -/
structure Generator where
  Name : String
  ShortName : String
  Slug : String
  SupportTest : Bool
  CheckLibrary : FileSystem → Bool
  GenerateLibrary : FileSystem → Option Error × FileSystem
  Generate : QuestionData → FileSystem → Except Error (List FileOutput) × FileSystem

/-- Struct baseLang (base.go 38-46). -/
structure baseLang where
  name : String
  slug : String
  shortName : String
  extension : String
  lineComment : String
  blockCommentStart : String
  blockCommentEnd : String
deriving DecidableEq, Repr

/-- What base.go reads from package config, from viper and from the clock:
config.Get() (Gen, Author, ProjectRoot()), the constants config.CodeBeginMark and
config.CodeEndMark, viper.GetString, viper.GetBool("yes"), and
time.Now().Format("2006/01/02 15:04"). -/
structure Settings where
  Gen : String
  Author : String
  ProjectRoot : String
  CodeBeginMark : String
  CodeEndMark : String
  GetString : String → String
  yes : Bool
  Now : String

/-- Outcome of os.WriteFile: success, a failure to open the file (nothing changed), or a
failure after the file was opened and truncated, which leaves the first n bytes written. -/
inductive WriteOutcome where
  | ok
  | openFailed (err : Error)
  | writeFailed (err : Error) (n : Nat)
deriving DecidableEq, Repr

/-- The host the pipeline runs on: unicode.ToLower, filepath.Join on three elements, and the
behaviour of the fallible collaborators, each of which may depend on everything that
happened so far (the world it is called in). -/
structure Host where
  lower : Char → Char
  Join : String → String → String → String
  AskOne : World → String → Except Error Bool
  CreateIfNotExists : World → String → Option Error
  WriteFile : World → String → String → WriteOutcome

/-! ## Strings -/

/-- Function strings.ToLower: every code point mapped through unicode.ToLower. -/
def ToLower (lower : Char → Char) (s : String) : String :=
  ⟨s.data.map lower⟩

/-- Function strings.HasPrefix. -/
def HasPrefix (s pre : String) : Bool :=
  pre.data.isPrefixOf s.data

/-- Function strings.Join. -/
def Join : List String → String → String
  | [], _ => ""
  | [a], _ => a
  | a :: b :: rest, sep => a ++ sep ++ Join (b :: rest) sep

/-! ## baseLang: the default generator -/

/-- Method baseLang.Name (base.go 48-50). -/
def baseLang.Name (l : baseLang) : String := l.name

/-- Method baseLang.Slug (base.go 52-54). -/
def baseLang.Slug (l : baseLang) : String := l.slug

/-- Method baseLang.ShortName (base.go 56-58). -/
def baseLang.ShortName (l : baseLang) : String := l.shortName

/-- Method baseLang.SupportTest (base.go 60-62). -/
def baseLang.SupportTest (_l : baseLang) : Bool := false

/-- Method baseLang.CheckLibrary (base.go 64-66). -/
def baseLang.CheckLibrary (_l : baseLang) : Bool := true

/-- Method baseLang.GenerateLibrary (base.go 68-70). -/
def baseLang.GenerateLibrary (_l : baseLang) : Option Error := none

/-- Method baseLang.generateComments (base.go 73-90). -/
def baseLang.generateComments (s : Settings) (l : baseLang) (q : QuestionData) : String :=
  let content : List String := []
  let now := s.Now
  let content := content ++ [l.lineComment ++ " Created by " ++ s.Author ++ " at " ++ now]
  let content := content ++ [l.lineComment ++ " " ++ q.Url]
  let content := if q.IsContest then content ++ [l.lineComment ++ " " ++ q.ContestUrl] else content
  let content := content ++ [""]
  let content := content ++ [l.blockCommentStart]
  let content := content ++ [q.QuestionFrontendId ++ "." ++ q.GetTitle ++ " (" ++ q.Difficulty ++ ")"]
  let content := content ++ [""]
  let content := content ++ [q.GetFormattedContent]
  let content := content ++ [l.blockCommentEnd]
  let content := content ++ [""]
  Join content "\n"

/-- Type Modifier (base.go 92). -/
abbrev Modifier := String → QuestionData → String

/-- Method baseLang.generateCode (base.go 94-100). -/
def baseLang.generateCode (l : baseLang) (q : QuestionData) (modifiers : List Modifier) : String :=
  modifiers.foldl (fun code m => m code q) (q.GetCodeSnippet l.Slug)

/-- Function addCodeMark (base.go 102-106). -/
def addCodeMark (s : Settings) (comment : String) : Modifier :=
  fun code _q =>
    comment ++ " " ++ s.CodeBeginMark ++ "\n\n" ++ code ++ "\n\n" ++ comment ++ " " ++ s.CodeEndMark

/-- Function removeComments (base.go 108-110). -/
def removeComments (code : String) (_q : QuestionData) : String := code

/-- Method baseLang.Generate (base.go 112-123). -/
def baseLang.Generate (s : Settings) (l : baseLang) (q : QuestionData) :
    Except Error (List FileOutput) :=
  let comment := l.generateComments s q
  let code := l.generateCode q [addCodeMark s l.lineComment]
  let content := comment ++ "\n" ++ code ++ "\n"
  let files : FileOutput := { Path := q.TitleSlug ++ l.extension, Content := content }
  .ok [files]

/-- A baseLang value seen through interface Generator: the seven methods of base.go 48-123. -/
def baseLang.toGenerator (s : Settings) (l : baseLang) : Generator where
  Name := l.Name
  ShortName := l.ShortName
  Slug := l.Slug
  SupportTest := l.SupportTest
  CheckLibrary := fun _ => l.CheckLibrary
  GenerateLibrary := fun fs => (l.GenerateLibrary, fs)
  Generate := fun q fs => (l.Generate s q, fs)

/-! ## Registry lookup -/

/-- The loop of GetGenerator (base.go 132-137) over the registry SupportedLanguages. -/
def GetGenerator.loop (gen : String) : List Generator → Option Generator
  | [] => none
  | l :: rest =>
    if HasPrefix l.ShortName gen || HasPrefix l.Slug gen then some l
    else GetGenerator.loop gen rest

/-- Function GetGenerator (base.go 130-138); nil is none. -/
def GetGenerator (h : Host) (SupportedLanguages : List Generator) (gen : String) :
    Option Generator :=
  let gen := ToLower h.lower gen
  GetGenerator.loop gen SupportedLanguages

/-! ## File materializer -/

/-- Modelled from the spec: utils.IsExist (package utils is outside src/), the test
"the target path already exists" of the existence policy, read on the tracked files. -/
def IsExist (fs : FileSystem) (file : String) : Bool :=
  (fs.lookup file).isSome

/-- The filesystem after the named file has been given the bytes content. -/
def FileSystem.write (fs : FileSystem) (file content : String) : FileSystem :=
  (file, content) :: fs.filter (fun e => e.1 != file)

/-- The message of the confirmation prompt (base.go 188). -/
def overwritePrompt (file : String) : String :=
  "File \"" ++ file ++ "\" already exists, overwrite?"

/-- Function tryWrite (base.go 184-209). Each collaborator is asked in the world in which
its own call is already on record.

utils.CreateIfNotExists is outside src/. Modelled from the spec: it "ensures parent
directories exist" and may fail; directories are not tracked, so its success leaves the
tracked files as they are. os.WriteFile follows its documentation: on success the file
holds content, a failure may leave the file partially written. -/
def tryWrite (h : Host) (s : Settings) (file content : String) (w : World) :
    Except Error Bool × World :=
  let w := w.log (.tryWrite file content)
  let w := w.log (.IsExist file)
  let asked : Except Error Bool × World :=
    if IsExist w.files file then
      if !s.yes then
        let prompt := overwritePrompt file
        let w := w.log (.AskOne prompt)
        (h.AskOne w prompt, w)
      else (.ok true, w)
    else (.ok true, w)
  match asked with
  | (.error err, w) => (.error err, w)
  | (.ok write, w) =>
    if !write then (.ok false, w)
    else
      let w := w.log (.CreateIfNotExists file)
      match h.CreateIfNotExists w file with
      | some err => (.error err, w)
      | none =>
        let w := w.log (.WriteFile file content)
        match h.WriteFile w file content with
        | .openFailed err => (.error err, w)
        | .writeFailed err n =>
          (.error err, { w with files := w.files.write file ⟨content.data.take n⟩ })
        | .ok =>
          let w := { w with files := w.files.write file content }
          (.ok true, w.log (.logInfo file))

/-- The first half of Generate (base.go 141-162): generator selection, the snippet check,
the library prerequisite and the call of the generator. -/
def Generate.prepare (h : Host) (s : Settings) (SupportedLanguages : List Generator)
    (q : QuestionData) (w : World) : Except Error (List FileOutput) × World :=
  match GetGenerator h SupportedLanguages s.Gen with
  | none => (.error ("language " ++ s.Gen ++ " is not supported yet, welcome to send a PR"), w)
  | some gen =>
    let codeSnippet := q.GetCodeSnippet gen.Slug
    if codeSnippet = "" then
      (.error ("no " ++ s.Gen ++ " code snippet found for " ++ q.TitleSlug), w)
    else
      let w := w.log .CheckLibrary
      let lib : Option Error × World :=
        if !gen.CheckLibrary w.files then
          let w := w.log .GenerateLibrary
          let r := gen.GenerateLibrary w.files
          (r.1, { w with files := r.2 })
        else (none, w)
      match lib with
      | (some err, w) => (.error err, w)
      | (none, w) =>
        let w := w.log .GeneratorGenerate
        let r := gen.Generate q w.files
        (r.1, { w with files := r.2 })

/-- The output directory of Generate (base.go 164-167). -/
def Generate.dir (s : Settings) : String :=
  let dir := s.GetString (s.Gen ++ ".out_dir")
  if dir = "" then s.Gen else dir

/-- The write loop of Generate (base.go 169-180). -/
def Generate.loop (h : Host) (s : Settings) (dir : String) :
    List FileOutput → List String → World → List String × World
  | [], generated, w => (generated, w)
  | f :: files, generated, w =>
    let path := h.Join s.ProjectRoot dir f.Path
    match tryWrite h s path f.Content w with
    | (.error err, w) => Generate.loop h s dir files generated (w.log (.logError path err))
    | (.ok written, w) =>
      Generate.loop h s dir files (if written then generated ++ [path] else generated) w

/-- Function Generate (base.go 140-182), the pipeline-level operation. -/
def Generate (h : Host) (s : Settings) (SupportedLanguages : List Generator)
    (q : QuestionData) (w : World) : Except Error (List String) × World :=
  match Generate.prepare h s SupportedLanguages q w with
  | (.error err, w) => (.error err, w)
  | (.ok files, w) =>
    let r := Generate.loop h s (Generate.dir s) files [] w
    (.ok r.1, r.2)

/-! ## Specification side: registry matching and reading the code region back -/

/-- A generator matches a lowered token when the token is a prefix of its short name or of
its slug. -/
def Matches (gen : String) (l : Generator) : Prop :=
  gen.data <+: l.ShortName.data ∨ gen.data <+: l.Slug.data

/-- The lines of a text: the pieces between newline characters. -/
def splitLines : List Char → List (List Char)
  | [] => [[]]
  | c :: cs =>
    if c = '\n' then [] :: splitLines cs
    else
      match splitLines cs with
      | [] => [[c]]
      | l :: ls => (c :: l) :: ls

/-- Lines put back together with a newline between neighbours. -/
def joinLines : List (List Char) → List Char
  | [] => []
  | [l] => l
  | l :: l2 :: ls => l ++ '\n' :: joinLines (l2 :: ls)

/-- The lines that follow the last line equal to mark; none when no line equals mark. -/
def afterLastMark (mark : List Char) : List (List Char) → Option (List (List Char))
  | [] => none
  | l :: ls =>
    match afterLastMark mark ls with
    | some r => some r
    | none => if l = mark then some ls else none

/-- The lines that precede the first line equal to mark; none when no line equals mark. -/
def beforeFirstMark (mark : List Char) : List (List Char) → Option (List (List Char))
  | [] => none
  | l :: ls => if l = mark then some [] else (beforeFirstMark mark ls).map (fun r => l :: r)

/-- Removes the single blank separator line on each side; none when one is missing. -/
def stripBlank : List (List Char) → Option (List (List Char))
  | [] :: rest => if rest.getLast? = some [] then some rest.dropLast else none
  | _ => none

/-- The text strictly between the begin-marker line and the end-marker line of a generated
content, the blank separator lines removed: the region is delimited by the last line equal
to the begin marker and the first line equal to the end marker after it. -/
def codeBetweenMarks (beginLine endLine content : String) : Option String :=
  ((afterLastMark beginLine.data (splitLines content.data)).bind
    (beforeFirstMark endLine.data)).bind
    (fun mid => (stripBlank mid).map (fun ls => String.mk (joinLines ls)))

/-! ## Specification side: what a run of the write loop did -/

/-- The absolute path Generate resolves for a file of the batch (base.go 171). -/
def resolvePath (h : Host) (s : Settings) (f : FileOutput) : String :=
  h.Join s.ProjectRoot (Generate.dir s) f.Path

/-- The world in which the write loop goes on after one file: a failure has been logged. -/
def afterFile (path : String) (r : Except Error Bool × World) : World :=
  match r.1 with
  | .error err => r.2.log (.logError path err)
  | .ok _ => r.2

/-- What tryWrite reported for each file of the batch, in input order, every call made in
the world its predecessors left behind. -/
def writeOutcomes (h : Host) (s : Settings) :
    List FileOutput → World → List (String × Except Error Bool)
  | [], _ => []
  | f :: files, w =>
    let r := tryWrite h s (resolvePath h s f) f.Content w
    (resolvePath h s f, r.1) :: writeOutcomes h s files (afterFile (resolvePath h s f) r)

/-- Whether tryWrite reported written = true with no error. -/
def reportedWritten : Except Error Bool → Bool
  | .ok true => true
  | _ => false

/-- The file a tryWrite call was made for, for the events that are such calls. -/
def Event.attempt? : Event → Option String
  | .tryWrite file _ => some file
  | _ => none

/-- Events recorded inside tryWrite after its entry. -/
def Event.inner : Event → Bool
  | .IsExist _ | .AskOne _ | .CreateIfNotExists _ | .WriteFile _ _ | .logInfo _ => true
  | _ => false

/-- Events the write loop can record: tryWrite calls, what they record, and logged failures. -/
def Event.ofWriteLoop : Event → Bool
  | .CheckLibrary | .GenerateLibrary | .GeneratorGenerate => false
  | _ => true

/-- The confirmation step of tryWrite (base.go 186-194), from the world in which the
IsExist call is on record: the value of write, or the error of the collaborator. -/
def confirmStep (h : Host) (s : Settings) (file : String) (w : World) :
    Except Error Bool × World :=
  if IsExist w.files file then
    if !s.yes then
      (h.AskOne (w.log (.AskOne (overwritePrompt file))) (overwritePrompt file),
        w.log (.AskOne (overwritePrompt file)))
    else (.ok true, w)
  else (.ok true, w)

/-- The writing step of tryWrite (base.go 199-208), from the world left by the confirmation. -/
def performStep (h : Host) (file content : String) (w : World) : Except Error Bool × World :=
  match h.CreateIfNotExists (w.log (.CreateIfNotExists file)) file with
  | some err => (.error err, w.log (.CreateIfNotExists file))
  | none =>
    match h.WriteFile ((w.log (.CreateIfNotExists file)).log (.WriteFile file content))
        file content with
    | .openFailed err =>
      (.error err, (w.log (.CreateIfNotExists file)).log (.WriteFile file content))
    | .writeFailed err n =>
      (.error err, { files := w.files.write file ⟨content.data.take n⟩,
                     trace := w.trace ++ [.CreateIfNotExists file, .WriteFile file content] })
    | .ok =>
      (.ok true, { files := w.files.write file content,
                   trace := w.trace ++ [.CreateIfNotExists file, .WriteFile file content,
                     .logInfo file] })

/-- The world in which the confirmation collaborator is asked about an existing file:
the tryWrite call, the existence check and the question are on record. -/
def askedWorld (w : World) (file content : String) : World :=
  { files := w.files,
    trace := w.trace ++ [.tryWrite file content, .IsExist file, .AskOne (overwritePrompt file)] }

/-! ## Example values -/

/-- A python generator descriptor. -/
def python3 : baseLang :=
  { name := "Python", slug := "python3", shortName := "py", extension := ".py",
    lineComment := "#", blockCommentStart := "\"\"\"", blockCommentEnd := "\"\"\"" }

/-- A go generator descriptor. -/
def golang : baseLang :=
  { name := "Go", slug := "golang", shortName := "go", extension := ".go",
    lineComment := "//", blockCommentStart := "/**", blockCommentEnd := "*/" }

/-- Example settings: language token py, no out_dir override, auto-yes unset. -/
def exSettings : Settings :=
  { Gen := "py", Author := "me", ProjectRoot := "/proj", CodeBeginMark := "@lc code=begin",
    CodeEndMark := "@lc code=end", GetString := fun _ => "", yes := false,
    Now := "2023/01/02 03:04" }

/-- The question two-sum with a python3 snippet only. -/
def twoSum : QuestionData :=
  { QuestionFrontendId := "1", TitleSlug := "two-sum", Difficulty := "Easy",
    Url := "https://leetcode.com/problems/two-sum/", IsContest := false, ContestUrl := "",
    GetTitle := "Two Sum", GetFormattedContent := "Given an array.",
    GetCodeSnippet := fun slug => if slug = "python3" then "class Solution:\n    pass" else "" }

/-- A two-generator registry: go first, then python. -/
def exRegistry : List Generator :=
  [golang.toGenerator exSettings, python3.toGenerator exSettings]

/-- A host where nothing fails and every confirmation is answered yes. -/
def exHost : Host :=
  { lower := Char.toLower,
    Join := fun a b c => a ++ "/" ++ b ++ "/" ++ c,
    AskOne := fun _ _ => .ok true,
    CreateIfNotExists := fun _ _ => none,
    WriteFile := fun _ _ _ => .ok }

/-- The empty world. -/
def World.empty : World := { files := [], trace := [] }

/-- A generator with short name py that returns three files and needs no library. -/
def multiFile : Generator :=
  { Name := "Python", ShortName := "py", Slug := "python3", SupportTest := false,
    CheckLibrary := fun _ => true,
    GenerateLibrary := fun fs => (none, fs),
    Generate := fun _ fs =>
      (.ok [{ Path := "a.txt", Content := "A" }, { Path := "b.txt", Content := "B" },
            { Path := "c.txt", Content := "C" }], fs) }

/-- A generator whose library is never installed and cannot be generated. -/
def needsLibrary : Generator :=
  { multiFile with
    CheckLibrary := fun _ => false,
    GenerateLibrary := fun fs => (some "cannot copy library", fs) }

/-- A world in which the first file of multiFile already exists. -/
def worldWithA : World := { files := [("/proj/py/a.txt", "old")], trace := [] }

/-- A host whose confirmation collaborator fails whenever it is asked. -/
def askFails : Host := { exHost with AskOne := fun _ _ => .error "not a terminal" }

/-- A host whose confirmation collaborator answers no whenever it is asked. -/
def declines : Host := { exHost with AskOne := fun _ _ => .ok false }

/-- A host on which writing the second file of multiFile fails after truncation. -/
def secondWriteFails : Host :=
  { exHost with
    WriteFile := fun _ file _ =>
      if file = "/proj/py/b.txt" then .writeFailed "disk full" 0 else .ok }

/-- The example settings with the language token go. -/
def goSettings : Settings := { exSettings with Gen := "go" }

/-- A question whose formatted description is a line equal to python's begin marker. -/
def markerQuestion : QuestionData :=
  { twoSum with GetFormattedContent := "# @lc code=begin" }

/-- A C++ generator descriptor: the full name is no prefix of the short name or the slug. -/
def cpp : baseLang :=
  { name := "C++", slug := "cpp", shortName := "cpp", extension := ".cpp",
    lineComment := "//", blockCommentStart := "/**", blockCommentEnd := "*/" }

/-- The example settings with the auto-yes flag set. -/
def yesSettings : Settings := { exSettings with yes := true }

/-- The settings of a second run, one minute later, with the auto-yes flag set. -/
def laterSettings : Settings := { yesSettings with Now := "2023/01/02 03:05" }

/-! ## The edit command (src/cmd/edit.go) -/

/-- What the handler of the edit command calls outside edit.go: the configured language
config.Get().Code.Lang, leetcode.ParseQID (on the client of leetcode.NewClient),
lang.GeneratePathsOnly, reduced to the Files of its result, and editor.Open. -/
structure EditEnv where
  Lang : String
  ParseQID : String → Except Error (List QuestionData)
  GeneratePathsOnly : QuestionData → Except Error (List String)
  Open : List String → Option Error

/-- Calls the handler of the edit command makes, in order. -/
inductive EditEvent where
  | ParseQID (qid : String)
  | GeneratePathsOnly (q : QuestionData)
  | Open (files : List String)

/-- How a run of the handler ends: it returns an error value (nil is none), or the Go
runtime panics. -/
inductive RunResult where
  | returned (err : Option Error)
  | panicked (message : String)
deriving DecidableEq, Repr

/-- The handler editCmd.RunE (edit.go 18-37) on its one argument (cobra.ExactArgs(1)), with
the calls it made. Indexing an empty slice at edit.go 32 is a runtime panic. -/
def editCmd.RunE (h : Host) (SupportedLanguages : List Generator) (env : EditEnv)
    (qid : String) : RunResult × List EditEvent :=
  match GetGenerator h SupportedLanguages env.Lang with
  | none => (.returned (some ("language " ++ env.Lang ++ " is not supported yet")), [])
  | some _ =>
    match env.ParseQID qid with
    | .error err => (.returned (some err), [.ParseQID qid])
    | .ok qs =>
      if qs.length > 1 then
        (.returned (some "multiple questions found"), [.ParseQID qid])
      else
        match qs with
        | [] =>
          (.panicked "runtime error: index out of range [0] with length 0", [.ParseQID qid])
        | q :: _ =>
          match env.GeneratePathsOnly q with
          | .error err => (.returned (some err), [.ParseQID qid, .GeneratePathsOnly q])
          | .ok files =>
            (.returned (env.Open files), [.ParseQID qid, .GeneratePathsOnly q, .Open files])

/-- The question a GeneratePathsOnly call was made on, for the events that are such calls. -/
def EditEvent.resolved? : EditEvent → Option QuestionData
  | .GeneratePathsOnly q => some q
  | _ => none

/-- Whether an event is a call of editor.Open. -/
def EditEvent.isOpen : EditEvent → Bool
  | .Open _ => true
  | _ => false

/-- An edit environment whose lookup returns the given questions for every identifier. -/
def exEditEnv (qs : List QuestionData) : EditEnv :=
  { Lang := "py",
    ParseQID := fun _ => .ok qs,
    GeneratePathsOnly := fun q => .ok ["/proj/py/" ++ q.TitleSlug ++ ".py"],
    Open := fun _ => none }

/-! ## Registry lookup: GetGenerator -/

theorem HasPrefix_iff (s pre : String) : HasPrefix s pre = true ↔ pre.data <+: s.data := by
  unfold HasPrefix
  exact List.isPrefixOf_iff_prefix

theorem loop_cond_iff (gen : String) (l : Generator) :
    (HasPrefix l.ShortName gen || HasPrefix l.Slug gen) = true ↔ Matches gen l := by
  simp [Matches, HasPrefix_iff]

theorem GetGenerator_loop_none (gen : String) (reg : List Generator) :
    GetGenerator.loop gen reg = none ↔ ∀ x ∈ reg, ¬ Matches gen x := by
  induction reg with
  | nil => simp [GetGenerator.loop]
  | cons l rest ih =>
    by_cases hm : (HasPrefix l.ShortName gen || HasPrefix l.Slug gen) = true
    · have hl : Matches gen l := (loop_cond_iff gen l).1 hm
      simp only [GetGenerator.loop, hm, if_true]
      constructor
      · intro hc; cases hc
      · intro hall; exact absurd hl (hall l (List.mem_cons_self _ _))
    · have hl : ¬ Matches gen l := fun hc => hm ((loop_cond_iff gen l).2 hc)
      simp only [GetGenerator.loop, hm, if_false, Bool.false_eq_true]
      rw [ih]
      constructor
      · intro hall x hx
        rcases List.mem_cons.1 hx with rfl | hx
        · exact hl
        · exact hall x hx
      · intro hall x hx
        exact hall x (List.mem_cons_of_mem _ hx)

theorem GetGenerator_loop_some (gen : String) (reg : List Generator) (g : Generator)
    (hg : GetGenerator.loop gen reg = some g) :
    ∃ before after, reg = before ++ g :: after ∧ (∀ x ∈ before, ¬ Matches gen x) ∧
      Matches gen g := by
  induction reg with
  | nil => simp [GetGenerator.loop] at hg
  | cons l rest ih =>
    by_cases hm : (HasPrefix l.ShortName gen || HasPrefix l.Slug gen) = true
    · simp only [GetGenerator.loop, hm, if_true, Option.some.injEq] at hg
      subst hg
      exact ⟨[], rest, rfl, by simp, (loop_cond_iff gen l).1 hm⟩
    · have hl : ¬ Matches gen l := fun hc => hm ((loop_cond_iff gen l).2 hc)
      simp only [GetGenerator.loop, hm, if_false, Bool.false_eq_true] at hg
      obtain ⟨before, after, hreg, hbefore, hmatch⟩ := ih hg
      refine ⟨l :: before, after, by simp [hreg], ?_, hmatch⟩
      intro x hx
      rcases List.mem_cons.1 hx with rfl | hx
      · exact hl
      · exact hbefore x hx

theorem GetGenerator_loop_first (gen : String) (before after : List Generator) (g : Generator)
    (hbefore : ∀ x ∈ before, ¬ Matches gen x) (hg : Matches gen g) :
    GetGenerator.loop gen (before ++ g :: after) = some g := by
  induction before with
  | nil =>
    have hm := (loop_cond_iff gen g).2 hg
    simp [GetGenerator.loop, hm]
  | cons l rest ih =>
    have hl : ¬ (HasPrefix l.ShortName gen || HasPrefix l.Slug gen) = true :=
      fun hc => hbefore l (List.mem_cons_self _ _) ((loop_cond_iff gen l).1 hc)
    simp only [List.cons_append, GetGenerator.loop, hl, if_false, Bool.false_eq_true]
    exact ih (fun x hx => hbefore x (List.mem_cons_of_mem _ hx))

/-- C1. For every registry and every token, GetGenerator returns the first generator in
registry order whose short name or slug has the lowered token as a prefix (every generator
before it matches neither, and any such split of the registry determines the result), and
it returns nil exactly when no registered generator matches. -/
theorem GetGenerator_first_match (h : Host) (reg : List Generator) (token : String) :
    (∀ g, GetGenerator h reg token = some g →
      ∃ before after, reg = before ++ g :: after ∧
        (∀ x ∈ before, ¬ Matches (ToLower h.lower token) x) ∧
        Matches (ToLower h.lower token) g) ∧
    (∀ before g after, reg = before ++ g :: after →
      (∀ x ∈ before, ¬ Matches (ToLower h.lower token) x) →
      Matches (ToLower h.lower token) g → GetGenerator h reg token = some g) ∧
    (GetGenerator h reg token = none ↔ ∀ x ∈ reg, ¬ Matches (ToLower h.lower token) x) := by
  refine ⟨?_, ?_, ?_⟩
  · intro g hg
    exact GetGenerator_loop_some _ reg g hg
  · intro before g after hreg hbefore hg
    subst hreg
    exact GetGenerator_loop_first _ before after g hbefore hg
  · exact GetGenerator_loop_none _ reg

/-- Witness of C1 on the example registry: golang, registered first, does not match the
lowered token PY, python3 does, and python3 is returned. -/
theorem GetGenerator_first_match_witness :
    GetGenerator exHost exRegistry "PY" = some (python3.toGenerator exSettings) :=
  (GetGenerator_first_match exHost exRegistry "PY").2.1 [golang.toGenerator exSettings]
    (python3.toGenerator exSettings) [] rfl
    (by intro x hx; rw [List.mem_singleton.1 hx]; unfold Matches; decide)
    (by unfold Matches; decide)

/-! ## Content composer: baseLang.Generate -/

/-- C2. For every question and every default generator, baseLang.Generate succeeds with
exactly one FileOutput: its Path is the title slug followed by the extension and its
Content is the header, a newline, the marked code region and a newline. The same holds
when the generator is called through the Generator interface, which leaves the filesystem
alone, and title slug two-sum with extension .py gives the path two-sum.py. -/
theorem baseLang_Generate_single_file (s : Settings) (l : baseLang) (q : QuestionData) :
    l.Generate s q = .ok [{ Path := q.TitleSlug ++ l.extension,
                            Content := l.generateComments s q ++ "\n" ++
                              l.generateCode q [addCodeMark s l.lineComment] ++ "\n" }] ∧
    (∀ fs, (l.toGenerator s).Generate q fs =
      (.ok [{ Path := q.TitleSlug ++ l.extension,
              Content := l.generateComments s q ++ "\n" ++
                l.generateCode q [addCodeMark s l.lineComment] ++ "\n" }], fs)) ∧
    (python3.Generate s twoSum).map (fun files => files.map (fun f => f.Path)) =
      .ok ["two-sum.py"] :=
  ⟨rfl, fun _ => rfl, rfl⟩

/-! ## The code region and its markers -/

theorem splitLines_ne_nil (cs : List Char) : splitLines cs ≠ [] := by
  cases cs with
  | nil => simp [splitLines]
  | cons c cs =>
    unfold splitLines
    split
    · simp
    · split <;> simp

theorem splitLines_append_newline (a b : List Char) :
    splitLines (a ++ '\n' :: b) = splitLines a ++ splitLines b := by
  induction a with
  | nil => simp [splitLines]
  | cons c a ih =>
    by_cases hc : c = '\n'
    · simp [splitLines, hc, ih]
    · simp only [List.cons_append, splitLines, hc, if_false, List.append_eq]
      rw [ih]
      cases hsp : splitLines a with
      | nil => exact absurd hsp (splitLines_ne_nil a)
      | cons l ls => simp

theorem splitLines_single (a : List Char) (ha : '\n' ∉ a) : splitLines a = [a] := by
  induction a with
  | nil => simp [splitLines]
  | cons c a ih =>
    have hc : c ≠ '\n' := fun hc => ha (by simp [hc])
    have ha2 : '\n' ∉ a := fun hm => ha (List.mem_cons_of_mem _ hm)
    simp [splitLines, hc, ih ha2]

theorem joinLines_cons (l : List Char) (ls : List (List Char)) (hls : ls ≠ []) :
    joinLines (l :: ls) = l ++ '\n' :: joinLines ls := by
  cases ls with
  | nil => exact absurd rfl hls
  | cons l2 ls => simp [joinLines]

theorem joinLines_splitLines (cs : List Char) : joinLines (splitLines cs) = cs := by
  induction cs with
  | nil => simp [splitLines, joinLines]
  | cons c cs ih =>
    by_cases hc : c = '\n'
    · simp only [splitLines, hc, if_true]
      rw [joinLines_cons _ _ (splitLines_ne_nil cs), ih]
      simp
    · simp only [splitLines, hc, if_false]
      cases hsp : splitLines cs with
      | nil => exact absurd hsp (splitLines_ne_nil cs)
      | cons l ls =>
        rw [hsp] at ih
        cases ls with
        | nil =>
          simp only [joinLines] at ih ⊢
          rw [ih]
        | cons l2 ls =>
          simp only [joinLines] at ih ⊢
          rw [← ih]
          simp

theorem afterLastMark_absent (mark : List Char) (ls : List (List Char)) (hm : mark ∉ ls) :
    afterLastMark mark ls = none := by
  induction ls with
  | nil => rfl
  | cons l ls ih =>
    have h1 : l ≠ mark := fun hc => hm (by simp [hc])
    have h2 : mark ∉ ls := fun hc => hm (List.mem_cons_of_mem _ hc)
    simp [afterLastMark, ih h2, h1]

theorem afterLastMark_append (mark : List Char) (before rest r : List (List Char))
    (hr : afterLastMark mark rest = some r) :
    afterLastMark mark (before ++ rest) = some r := by
  induction before with
  | nil => simpa using hr
  | cons l before ih => simp [afterLastMark, ih]

theorem afterLastMark_last (mark : List Char) (before after : List (List Char))
    (hm : mark ∉ after) :
    afterLastMark mark (before ++ mark :: after) = some after := by
  apply afterLastMark_append
  simp [afterLastMark, afterLastMark_absent mark after hm]

theorem beforeFirstMark_first (mark : List Char) (mid after : List (List Char))
    (hm : mark ∉ mid) :
    beforeFirstMark mark (mid ++ mark :: after) = some mid := by
  induction mid with
  | nil => simp [beforeFirstMark]
  | cons l mid ih =>
    have h1 : l ≠ mark := fun hc => hm (by simp [hc])
    have h2 : mark ∉ mid := fun hc => hm (List.mem_cons_of_mem _ hc)
    simp [beforeFirstMark, h1, ih h2]

theorem stripBlank_wrapped (mid : List (List Char)) :
    stripBlank ([] :: (mid ++ [[]])) = some mid := by
  simp [stripBlank]

/-- The lines of a generated content: the header lines, the begin marker, a blank line, the
snippet lines, a blank line, the end marker and the empty piece after the last newline. -/
theorem splitLines_content (H B S E : List Char) (hB : '\n' ∉ B) (hE : '\n' ∉ E) :
    splitLines (H ++ '\n' :: (B ++ '\n' :: '\n' :: (S ++ '\n' :: '\n' :: (E ++ ['\n'])))) =
      splitLines H ++ B :: ([] :: (splitLines S ++ [[]]) ++ E :: [[]]) := by
  have h1 : splitLines ('\n' :: (E ++ ['\n'])) = [] :: E :: [[]] := by
    have := splitLines_append_newline [] (E ++ ['\n'])
    simp only [List.nil_append] at this
    rw [this, splitLines_append_newline E [], splitLines_single E hE]
    simp [splitLines]
  have h2 : splitLines ('\n' :: (S ++ '\n' :: '\n' :: (E ++ ['\n']))) =
      [] :: (splitLines S ++ [] :: E :: [[]]) := by
    have := splitLines_append_newline [] (S ++ '\n' :: '\n' :: (E ++ ['\n']))
    simp only [List.nil_append] at this
    rw [this, splitLines_append_newline S, h1]
    simp [splitLines]
  rw [splitLines_append_newline H, splitLines_append_newline B, splitLines_single B hB, h2]
  simp

theorem codeBetweenMarks_content (header beginLine endLine snippet : String)
    (hB : '\n' ∉ beginLine.data) (hE : '\n' ∉ endLine.data) (hBE : beginLine ≠ endLine)
    (hB0 : beginLine ≠ "") (hE0 : endLine ≠ "")
    (hsB : beginLine.data ∉ splitLines snippet.data)
    (hsE : endLine.data ∉ splitLines snippet.data) :
    codeBetweenMarks beginLine endLine
      (header ++ "\n" ++ (beginLine ++ "\n\n" ++ snippet ++ "\n\n" ++ endLine) ++ "\n") =
      some snippet := by
  have hdata : (header ++ "\n" ++ (beginLine ++ "\n\n" ++ snippet ++ "\n\n" ++ endLine) ++
      "\n").data = header.data ++ '\n' :: (beginLine.data ++ '\n' :: '\n' ::
        (snippet.data ++ '\n' :: '\n' :: (endLine.data ++ ['\n']))) := by
    simp [String.data_append]
  have hBE2 : beginLine.data ≠ endLine.data := fun hc => hBE (String.ext hc)
  have hB02 : beginLine.data ≠ [] := fun hc => hB0 (String.ext hc)
  have hE02 : endLine.data ≠ [] := fun hc => hE0 (String.ext hc)
  have hafter : beginLine.data ∉
      ([] :: (splitLines snippet.data ++ [[]]) ++ endLine.data :: [[]]) := by
    simp [hsB, hBE2, hB02]
  have hmid : endLine.data ∉ ([] :: (splitLines snippet.data ++ [[]])) := by
    simp [hsE, hE02]
  unfold codeBetweenMarks
  rw [hdata, splitLines_content _ _ _ _ hB hE, afterLastMark_last _ _ _ hafter]
  simp only [Option.some_bind]
  rw [beforeFirstMark_first _ _ _ hmid]
  simp only [Option.some_bind]
  rw [stripBlank_wrapped, Option.map_some', joinLines_splitLines]

/-- C3. Round-trip marker invariant. For a default generator whose two marker lines are
single lines with distinct marks, and every question whose snippet for the generator's
slug has no line equal to a marker line: the code region is the begin-marker line, a blank
line, the snippet, a blank line and the end-marker line; the text strictly between the two
marker lines of the generated content, the blank separator lines removed, is the snippet
unmodified; and removeComments returns its input, also as a modifier of the pipeline. -/
theorem code_region_round_trip (s : Settings) (l : baseLang) (q : QuestionData)
    (hB : '\n' ∉ (l.lineComment ++ " " ++ s.CodeBeginMark).data)
    (hE : '\n' ∉ (l.lineComment ++ " " ++ s.CodeEndMark).data)
    (hBE : s.CodeBeginMark ≠ s.CodeEndMark)
    (hsB : (l.lineComment ++ " " ++ s.CodeBeginMark).data ∉
      splitLines (q.GetCodeSnippet l.Slug).data)
    (hsE : (l.lineComment ++ " " ++ s.CodeEndMark).data ∉
      splitLines (q.GetCodeSnippet l.Slug).data) :
    l.generateCode q [addCodeMark s l.lineComment] =
      l.lineComment ++ " " ++ s.CodeBeginMark ++ "\n\n" ++ q.GetCodeSnippet l.Slug ++ "\n\n" ++
        l.lineComment ++ " " ++ s.CodeEndMark ∧
    (∃ content, l.Generate s q = .ok [{ Path := q.TitleSlug ++ l.extension, Content := content }] ∧
      codeBetweenMarks (l.lineComment ++ " " ++ s.CodeBeginMark)
        (l.lineComment ++ " " ++ s.CodeEndMark) content = some (q.GetCodeSnippet l.Slug)) ∧
    (∀ code q2, removeComments code q2 = code) ∧
    l.generateCode q [removeComments, addCodeMark s l.lineComment] =
      l.generateCode q [addCodeMark s l.lineComment] := by
  refine ⟨rfl, ⟨_, rfl, ?_⟩, fun _ _ => rfl, rfl⟩
  have hcontent : l.generateComments s q ++ "\n" ++
      l.generateCode q [addCodeMark s l.lineComment] ++ "\n" =
      l.generateComments s q ++ "\n" ++ ((l.lineComment ++ " " ++ s.CodeBeginMark) ++ "\n\n" ++
        q.GetCodeSnippet l.Slug ++ "\n\n" ++ (l.lineComment ++ " " ++ s.CodeEndMark)) ++ "\n" := by
    apply String.ext
    simp [baseLang.generateCode, addCodeMark, String.data_append, List.append_assoc]
  have hne : l.lineComment ++ " " ++ s.CodeBeginMark ≠ l.lineComment ++ " " ++ s.CodeEndMark := by
    intro hc
    have hd := congrArg String.data hc
    simp only [String.data_append, List.append_assoc, List.append_cancel_left_eq] at hd
    exact hBE (String.ext hd)
  have hB0 : l.lineComment ++ " " ++ s.CodeBeginMark ≠ "" := by
    intro hc
    have hd := congrArg String.data hc
    simp [String.data_append] at hd
  have hE0 : l.lineComment ++ " " ++ s.CodeEndMark ≠ "" := by
    intro hc
    have hd := congrArg String.data hc
    simp [String.data_append] at hd
  rw [hcontent]
  exact codeBetweenMarks_content _ _ _ _ hB hE hne hB0 hE0 hsB hsE

set_option maxRecDepth 4000 in
/-- Witness of C3: the python generator on two-sum. -/
theorem code_region_round_trip_witness :
    codeBetweenMarks "# @lc code=begin" "# @lc code=end"
      "# Created by me at 2023/01/02 03:04\n# https://leetcode.com/problems/two-sum/\n\n\"\"\"\n1.Two Sum (Easy)\n\nGiven an array.\n\"\"\"\n\n# @lc code=begin\n\nclass Solution:\n    pass\n\n# @lc code=end\n" =
      some "class Solution:\n    pass" := by
  obtain ⟨-, ⟨content, hgen, hread⟩, -⟩ := code_region_round_trip exSettings python3 twoSum
    (by decide) (by decide) (by decide) (by decide) (by decide)
  have hc : content = "# Created by me at 2023/01/02 03:04\n# https://leetcode.com/problems/two-sum/\n\n\"\"\"\n1.Two Sum (Easy)\n\nGiven an array.\n\"\"\"\n\n# @lc code=begin\n\nclass Solution:\n    pass\n\n# @lc code=end\n" := by
    have hgen2 : python3.Generate exSettings twoSum = .ok [{ Path := "two-sum.py", Content :=
        "# Created by me at 2023/01/02 03:04\n# https://leetcode.com/problems/two-sum/\n\n\"\"\"\n1.Two Sum (Easy)\n\nGiven an array.\n\"\"\"\n\n# @lc code=begin\n\nclass Solution:\n    pass\n\n# @lc code=end\n" }] := by
      decide
    rw [hgen2] at hgen
    simp only [Except.ok.injEq, List.cons.injEq, FileOutput.mk.injEq, and_true] at hgen
    exact hgen.2.symm
  rw [hc] at hread
  exact hread

/-! ## File materializer: tryWrite and the write loop -/

@[simp] theorem World.log_files (w : World) (e : Event) : (w.log e).files = w.files := rfl

@[simp] theorem World.log_trace (w : World) (e : Event) : (w.log e).trace = w.trace ++ [e] := rfl

/-- Function tryWrite is its confirmation step followed, unless declined, by its writing
step. -/
theorem tryWrite_eq (h : Host) (s : Settings) (file content : String) (w : World) :
    tryWrite h s file content w =
      match confirmStep h s file ((w.log (.tryWrite file content)).log (.IsExist file)) with
      | (.error err, w1) => (.error err, w1)
      | (.ok write, w1) => if !write then (.ok false, w1) else performStep h file content w1 := by
  unfold tryWrite confirmStep performStep
  simp only [World.log, List.append_assoc, List.singleton_append, List.cons_append,
    List.nil_append]
theorem confirmStep_files (h : Host) (s : Settings) (file : String) (w : World) :
    (confirmStep h s file w).2.files = w.files := by
  unfold confirmStep
  split_ifs <;> rfl

theorem confirmStep_trace (h : Host) (s : Settings) (file : String) (w : World) :
    ∃ d, (confirmStep h s file w).2.trace = w.trace ++ d ∧ ∀ e ∈ d, e.inner = true := by
  unfold confirmStep
  split_ifs
  · exact ⟨[.AskOne (overwritePrompt file)], rfl, by simp [Event.inner]⟩
  · exact ⟨[], by simp, by simp⟩
  · exact ⟨[], by simp, by simp⟩

theorem performStep_trace (h : Host) (file content : String) (w : World) :
    ∃ d, (performStep h file content w).2.trace = w.trace ++ d ∧ ∀ e ∈ d, e.inner = true := by
  unfold performStep
  split
  · exact ⟨[.CreateIfNotExists file], rfl, by simp [Event.inner]⟩
  · split
    · exact ⟨[.CreateIfNotExists file, .WriteFile file content], by simp, by simp [Event.inner]⟩
    · exact ⟨[.CreateIfNotExists file, .WriteFile file content], rfl, by simp [Event.inner]⟩
    · exact ⟨[.CreateIfNotExists file, .WriteFile file content, .logInfo file], rfl,
        by simp [Event.inner]⟩

theorem lookup_filter_ne (fs : FileSystem) (file p : String) (hp : p ≠ file) :
    (fs.filter (fun e => e.1 != file)).lookup p = fs.lookup p := by
  induction fs with
  | nil => rfl
  | cons e fs ih =>
    obtain ⟨k, v⟩ := e
    by_cases hk : k = file
    · subst hk
      have hpk : (p == k) = false := by simpa using hp
      rw [List.filter_cons]
      simp [List.lookup_cons, hpk, ih]
    · have hkb : (k != file) = true := by simpa using hk
      rw [List.filter_cons]
      simp only [hkb, if_true, List.lookup_cons]
      rw [ih]

theorem lookup_write (fs : FileSystem) (file content p : String) :
    (fs.write file content).lookup p = if p = file then some content else fs.lookup p := by
  unfold FileSystem.write
  by_cases hp : p = file
  · simp [hp, List.lookup_cons]
  · have hpb : (p == file) = false := by simpa using hp
    rw [List.lookup_cons]
    simp only [hpb, hp, if_false]
    exact lookup_filter_ne fs file p hp

/-- The writing step changes no file but the one it is asked to write. -/
theorem performStep_frame (h : Host) (file content : String) (w : World) (p : String)
    (hp : p ≠ file) :
    (performStep h file content w).2.files.lookup p = w.files.lookup p := by
  unfold performStep
  split
  · rfl
  · split
    · rfl
    · simp [lookup_write, hp]
    · simp [lookup_write, hp]

/-- Every run of tryWrite records its own call first and then only calls made inside it. -/
theorem tryWrite_trace (h : Host) (s : Settings) (file content : String) (w : World) :
    ∃ d, (tryWrite h s file content w).2.trace = w.trace ++ Event.tryWrite file content :: d ∧
      ∀ e ∈ d, e.inner = true := by
  rw [tryWrite_eq]
  obtain ⟨d1, hd1, hin1⟩ :=
    confirmStep_trace h s file ((w.log (.tryWrite file content)).log (.IsExist file))
  rcases hc : confirmStep h s file ((w.log (.tryWrite file content)).log (.IsExist file))
    with ⟨r, w1⟩
  rw [hc] at hd1
  simp only [World.log_trace, List.append_assoc, List.singleton_append] at hd1
  have hin : ∀ e ∈ Event.IsExist file :: d1, e.inner = true := by
    intro e he
    rcases List.mem_cons.1 he with rfl | he
    · rfl
    · exact hin1 e he
  cases r with
  | error err => exact ⟨Event.IsExist file :: d1, hd1, hin⟩
  | ok write =>
    cases write with
    | false => exact ⟨Event.IsExist file :: d1, hd1, hin⟩
    | true =>
      obtain ⟨d2, hd2, hin2⟩ := performStep_trace h file content w1
      refine ⟨Event.IsExist file :: d1 ++ d2, ?_, ?_⟩
      · simp only [Bool.not_true, Bool.false_eq_true, if_false]
        rw [hd2, hd1]
        simp
      · intro e he
        rcases List.mem_append.1 he with he | he
        · exact hin e he
        · exact hin2 e he

/-- Function tryWrite changes no file but the one it is asked to write. -/
theorem tryWrite_frame (h : Host) (s : Settings) (file content : String) (w : World)
    (p : String) (hp : p ≠ file) :
    (tryWrite h s file content w).2.files.lookup p = w.files.lookup p := by
  rw [tryWrite_eq]
  have hf := confirmStep_files h s file ((w.log (.tryWrite file content)).log (.IsExist file))
  rcases hc : confirmStep h s file ((w.log (.tryWrite file content)).log (.IsExist file))
    with ⟨r, w1⟩
  rw [hc] at hf
  simp only [World.log_files] at hf
  cases r with
  | error err => simp [hf]
  | ok write =>
    cases write with
    | false => simp [hf]
    | true =>
      simp only [Bool.not_true, Bool.false_eq_true, if_false]
      rw [performStep_frame h file content w1 p hp, hf]

/-- One turn of the write loop: the path is appended exactly when tryWrite reported it
written, and the loop goes on in the world left by this file. -/
theorem loop_cons (h : Host) (s : Settings) (f : FileOutput) (files : List FileOutput)
    (acc : List String) (w : World) :
    Generate.loop h s (Generate.dir s) (f :: files) acc w =
      Generate.loop h s (Generate.dir s) files
        (if reportedWritten (tryWrite h s (resolvePath h s f) f.Content w).1
          then acc ++ [resolvePath h s f] else acc)
        (afterFile (resolvePath h s f) (tryWrite h s (resolvePath h s f) f.Content w)) := by
  rw [Generate.loop]
  simp only [resolvePath, afterFile]
  rcases tryWrite h s (h.Join s.ProjectRoot (Generate.dir s) f.Path) f.Content w with ⟨r, w1⟩
  cases r with
  | error err => simp [reportedWritten]
  | ok written => cases written <;> simp [reportedWritten]

/-- The paths the write loop adds do not depend on the paths collected before. -/
theorem loop_acc (h : Host) (s : Settings) (files : List FileOutput) (acc : List String)
    (w : World) :
    Generate.loop h s (Generate.dir s) files acc w =
      (acc ++ (Generate.loop h s (Generate.dir s) files [] w).1,
        (Generate.loop h s (Generate.dir s) files [] w).2) := by
  induction files generalizing acc w with
  | nil => simp [Generate.loop]
  | cons f files ih =>
    rw [loop_cons, loop_cons h s f files []]
    generalize tryWrite h s (resolvePath h s f) f.Content w = r
    rw [ih (if reportedWritten r.1 = true then acc ++ [resolvePath h s f] else acc),
      ih (if reportedWritten r.1 = true then [] ++ [resolvePath h s f] else [])]
    split_ifs <;> simp

/-- The write loop over a batch in two parts is the loop over the second part, started
from what the first part returned and in the world the first part left. -/
theorem loop_append (h : Host) (s : Settings) (xs ys : List FileOutput) (acc : List String)
    (w : World) :
    Generate.loop h s (Generate.dir s) (xs ++ ys) acc w =
      Generate.loop h s (Generate.dir s) ys (Generate.loop h s (Generate.dir s) xs acc w).1
        (Generate.loop h s (Generate.dir s) xs acc w).2 := by
  induction xs generalizing acc w with
  | nil => simp [Generate.loop]
  | cons f xs ih => rw [List.cons_append, loop_cons, loop_cons, ih]

/-- The write loop returns the paths of the files reported written, in input order. -/
theorem loop_outcomes (h : Host) (s : Settings) (files : List FileOutput) (acc : List String)
    (w : World) :
    (Generate.loop h s (Generate.dir s) files acc w).1 =
      acc ++ ((writeOutcomes h s files w).filter (fun o => reportedWritten o.2)).map
        (fun o => o.1) := by
  induction files generalizing acc w with
  | nil => simp [Generate.loop, writeOutcomes]
  | cons f files ih =>
    rw [loop_cons, ih]
    simp only [writeOutcomes, List.filter_cons]
    split_ifs <;> simp

theorem writeOutcomes_paths (h : Host) (s : Settings) (files : List FileOutput) (w : World) :
    (writeOutcomes h s files w).map (fun o => o.1) = files.map (resolvePath h s) := by
  induction files generalizing w with
  | nil => rfl
  | cons f files ih => simp [writeOutcomes, ih]

theorem afterFile_trace (path : String) (r : Except Error Bool × World) :
    ∃ d, (afterFile path r).trace = r.2.trace ++ d ∧ d.filterMap Event.attempt? = [] ∧
      ∀ e ∈ d, e.ofWriteLoop = true := by
  unfold afterFile
  split
  · exact ⟨[_], rfl, rfl, by simp [Event.ofWriteLoop]⟩
  · exact ⟨[], by simp, rfl, by simp⟩

theorem afterFile_files (path : String) (r : Except Error Bool × World) :
    (afterFile path r).files = r.2.files := by
  unfold afterFile
  split <;> rfl

theorem filterMap_attempt_inner (d : List Event) (hd : ∀ e ∈ d, e.inner = true) :
    d.filterMap Event.attempt? = [] := by
  induction d with
  | nil => rfl
  | cons e d ih =>
    have he := hd e (List.mem_cons_self _ _)
    have hrest := ih (fun x hx => hd x (List.mem_cons_of_mem _ hx))
    cases e <;> simp_all [Event.inner, Event.attempt?]

theorem ofWriteLoop_of_inner (e : Event) (he : e.inner = true) : e.ofWriteLoop = true := by
  cases e <;> simp_all [Event.inner, Event.ofWriteLoop]

/-- The record of the write loop: one tryWrite call per file of the batch, in input order,
and nothing but events of the loop. -/
theorem loop_trace (h : Host) (s : Settings) (files : List FileOutput) (acc : List String)
    (w : World) :
    ∃ d, (Generate.loop h s (Generate.dir s) files acc w).2.trace = w.trace ++ d ∧
      d.filterMap Event.attempt? = files.map (resolvePath h s) ∧
      ∀ e ∈ d, e.ofWriteLoop = true := by
  induction files generalizing acc w with
  | nil => exact ⟨[], by simp [Generate.loop], rfl, by simp⟩
  | cons f files ih =>
    rw [loop_cons]
    obtain ⟨d1, hd1, hin1⟩ := tryWrite_trace h s (resolvePath h s f) f.Content w
    obtain ⟨d2, hd2, hat2, hin2⟩ :=
      afterFile_trace (resolvePath h s f) (tryWrite h s (resolvePath h s f) f.Content w)
    obtain ⟨d3, hd3, hat3, hin3⟩ := ih
      (if reportedWritten (tryWrite h s (resolvePath h s f) f.Content w).1
        then acc ++ [resolvePath h s f] else acc)
      (afterFile (resolvePath h s f) (tryWrite h s (resolvePath h s f) f.Content w))
    refine ⟨Event.tryWrite (resolvePath h s f) f.Content :: d1 ++ d2 ++ d3, ?_, ?_, ?_⟩
    · rw [hd3, hd2, hd1]
      simp
    · simp [List.filterMap_append, List.filterMap_cons, Event.attempt?, hat2, hat3,
        filterMap_attempt_inner d1 hin1]
    · intro e he
      simp only [List.cons_append, List.mem_cons, List.mem_append] at he
      rcases he with rfl | (he | he) | he
      · rfl
      · exact ofWriteLoop_of_inner e (hin1 e he)
      · exact hin2 e he
      · exact hin3 e he

/-- The write loop changes no file outside the resolved paths of its batch. -/
theorem loop_frame (h : Host) (s : Settings) (files : List FileOutput) (acc : List String)
    (w : World) (p : String) (hp : ∀ f ∈ files, p ≠ resolvePath h s f) :
    (Generate.loop h s (Generate.dir s) files acc w).2.files.lookup p = w.files.lookup p := by
  induction files generalizing acc w with
  | nil => simp [Generate.loop]
  | cons f files ih =>
    rw [loop_cons, ih _ _ (fun g hg => hp g (List.mem_cons_of_mem _ hg)), afterFile_files,
      tryWrite_frame h s _ _ w p (hp f (List.mem_cons_self _ _))]

/-! ## The pipeline-level Generate -/

theorem Generate_of_prepare (h : Host) (s : Settings) (reg : List Generator)
    (q : QuestionData) (w : World) (files : List FileOutput) (w0 : World)
    (hprep : Generate.prepare h s reg q w = (.ok files, w0)) :
    Generate h s reg q w = (.ok (Generate.loop h s (Generate.dir s) files [] w0).1,
      (Generate.loop h s (Generate.dir s) files [] w0).2) := by
  unfold Generate
  rw [hprep]

theorem Generate_ok_inv (h : Host) (s : Settings) (reg : List Generator)
    (q : QuestionData) (w : World) (paths : List String) (w2 : World)
    (hrun : Generate h s reg q w = (.ok paths, w2)) :
    ∃ files w0, Generate.prepare h s reg q w = (.ok files, w0) ∧
      Generate.loop h s (Generate.dir s) files [] w0 = (paths, w2) := by
  unfold Generate at hrun
  rcases hp : Generate.prepare h s reg q w with ⟨r, w0⟩
  rw [hp] at hrun
  cases r with
  | error err => simp at hrun
  | ok files =>
    simp only [Prod.mk.injEq, Except.ok.injEq] at hrun
    exact ⟨files, w0, rfl, Prod.ext hrun.1 hrun.2⟩

theorem Generate_of_empty_snippet (h : Host) (s : Settings) (reg : List Generator)
    (q : QuestionData) (w : World) (gen : Generator)
    (hgen : GetGenerator h reg s.Gen = some gen) (hsnip : q.GetCodeSnippet gen.Slug = "") :
    Generate h s reg q w =
      (.error ("no " ++ s.Gen ++ " code snippet found for " ++ q.TitleSlug), w) := by
  unfold Generate Generate.prepare
  simp only [hgen, hsnip, if_true]

/-- C4. If the selected generator exists and the question's snippet for its slug is empty,
Generate returns the snippet-missing error and no path list, in exactly the world it was
called in: nothing was recorded (neither GenerateLibrary nor the generator's Generate was
called) and the filesystem is unchanged. -/
theorem Generate_snippet_missing (h : Host) (s : Settings) (reg : List Generator)
    (q : QuestionData) (w : World) (gen : Generator)
    (hgen : GetGenerator h reg s.Gen = some gen) (hsnip : q.GetCodeSnippet gen.Slug = "") :
    Generate h s reg q w =
      (.error ("no " ++ s.Gen ++ " code snippet found for " ++ q.TitleSlug), w) ∧
    (Generate h s reg q w).2.files = w.files ∧
    (Generate h s reg q w).2.trace = w.trace := by
  have hrun := Generate_of_empty_snippet h s reg q w gen hgen hsnip
  rw [hrun]
  exact ⟨rfl, rfl, rfl⟩

/-- Witness of C4: the token go selects golang, for which two-sum has no snippet. -/
theorem Generate_snippet_missing_witness :
    Generate exHost goSettings exRegistry twoSum worldWithA =
      (.error "no go code snippet found for two-sum", worldWithA) :=
  (Generate_snippet_missing exHost goSettings exRegistry twoSum worldWithA
    (golang.toGenerator exSettings) rfl rfl).1

/-- C5. When Generate returns without error, the generator had returned a batch of files
and the result is exactly the resolved paths of the files for which tryWrite reported
written = true with no error, in input order: a subsequence of the resolved input paths,
every member of which is the path of a file reported written. -/
theorem Generate_returns_written (h : Host) (s : Settings) (reg : List Generator)
    (q : QuestionData) (w : World) (paths : List String) (w2 : World)
    (hrun : Generate h s reg q w = (.ok paths, w2)) :
    ∃ files w0, Generate.prepare h s reg q w = (.ok files, w0) ∧
      (writeOutcomes h s files w0).map (fun o => o.1) = files.map (resolvePath h s) ∧
      paths = ((writeOutcomes h s files w0).filter (fun o => reportedWritten o.2)).map
        (fun o => o.1) ∧
      paths.Sublist (files.map (resolvePath h s)) ∧
      (∀ p ∈ paths, ∃ f ∈ files, p = resolvePath h s f) ∧
      (∀ p ∈ paths, (p, Except.ok true) ∈ writeOutcomes h s files w0) := by
  obtain ⟨files, w0, hprep, hloop⟩ := Generate_ok_inv h s reg q w paths w2 hrun
  have hpaths : paths = ((writeOutcomes h s files w0).filter
      (fun o => reportedWritten o.2)).map (fun o => o.1) := by
    have := loop_outcomes h s files [] w0
    rw [hloop] at this
    simpa using this
  have hsub : paths.Sublist (files.map (resolvePath h s)) := by
    rw [hpaths, ← writeOutcomes_paths h s files w0]
    exact List.Sublist.map _ (List.filter_sublist _)
  refine ⟨files, w0, hprep, writeOutcomes_paths h s files w0, hpaths, hsub, ?_, ?_⟩
  · intro p hp
    have hmem := hsub.subset hp
    obtain ⟨f, hf, hfp⟩ := List.mem_map.1 hmem
    exact ⟨f, hf, hfp.symm⟩
  · intro p hp
    rw [hpaths] at hp
    obtain ⟨o, ho, hop⟩ := List.mem_map.1 hp
    obtain ⟨hmem, hw⟩ := List.mem_filter.1 ho
    obtain ⟨o1, o2⟩ := o
    simp only at hop hw
    subst hop
    cases o2 with
    | error err => simp [reportedWritten] at hw
    | ok b =>
      cases b with
      | false => simp [reportedWritten] at hw
      | true => exact hmem

set_option maxRecDepth 4000 in
/-- Witness of C5: of the three files of multiFile, the second fails to be written and the
other two are returned, in input order. -/
theorem Generate_returns_written_witness :
    ∃ files w0, Generate.prepare secondWriteFails exSettings [multiFile] twoSum World.empty =
        (.ok files, w0) ∧
      (writeOutcomes secondWriteFails exSettings files w0).map (fun o => o.1) =
        files.map (resolvePath secondWriteFails exSettings) ∧
      ["/proj/py/a.txt", "/proj/py/c.txt"] =
        ((writeOutcomes secondWriteFails exSettings files w0).filter
          (fun o => reportedWritten o.2)).map (fun o => o.1) ∧
      ["/proj/py/a.txt", "/proj/py/c.txt"].Sublist
        (files.map (resolvePath secondWriteFails exSettings)) ∧
      (∀ p ∈ ["/proj/py/a.txt", "/proj/py/c.txt"],
        ∃ f ∈ files, p = resolvePath secondWriteFails exSettings f) ∧
      (∀ p ∈ ["/proj/py/a.txt", "/proj/py/c.txt"],
        (p, Except.ok true) ∈ writeOutcomes secondWriteFails exSettings files w0) :=
  Generate_returns_written secondWriteFails exSettings [multiFile] twoSum World.empty
    ["/proj/py/a.txt", "/proj/py/c.txt"]
    (Generate secondWriteFails exSettings [multiFile] twoSum World.empty).2 (by decide)

/-! ## Declined overwrite and failures of the confirmation collaborator -/

theorem confirmStep_asked (h : Host) (s : Settings) (file content : String) (w : World)
    (hex : IsExist w.files file = true) (hyes : s.yes = false) :
    confirmStep h s file ((w.log (.tryWrite file content)).log (.IsExist file)) =
      (h.AskOne (askedWorld w file content) (overwritePrompt file),
        askedWorld w file content) := by
  have hw : ((w.log (.tryWrite file content)).log (.IsExist file)).log
      (.AskOne (overwritePrompt file)) = askedWorld w file content := by
    simp [World.log, askedWorld]
  unfold confirmStep
  simp only [World.log_files, hex, hyes, if_true, Bool.not_false, hw]

theorem tryWrite_of_declined (h : Host) (s : Settings) (file content : String) (w : World)
    (hex : IsExist w.files file = true) (hyes : s.yes = false)
    (hans : h.AskOne (askedWorld w file content) (overwritePrompt file) = .ok false) :
    tryWrite h s file content w = (.ok false, askedWorld w file content) := by
  rw [tryWrite_eq, confirmStep_asked h s file content w hex hyes, hans]
  rfl

theorem tryWrite_of_ask_error (h : Host) (s : Settings) (file content : String) (w : World)
    (err : Error) (hex : IsExist w.files file = true) (hyes : s.yes = false)
    (hans : h.AskOne (askedWorld w file content) (overwritePrompt file) = .error err) :
    tryWrite h s file content w = (.error err, askedWorld w file content) := by
  rw [tryWrite_eq, confirmStep_asked h s file content w hex hyes, hans]

theorem loop_all_declined (h : Host) (s : Settings) (hyes : s.yes = false)
    (hno : ∀ w msg, h.AskOne w msg = .ok false) (files : List FileOutput)
    (acc : List String) (w : World)
    (hex : ∀ f ∈ files, IsExist w.files (resolvePath h s f) = true) :
    (Generate.loop h s (Generate.dir s) files acc w).1 = acc ∧
      (Generate.loop h s (Generate.dir s) files acc w).2.files = w.files := by
  induction files generalizing acc w with
  | nil => simp [Generate.loop]
  | cons f files ih =>
    rw [loop_cons, tryWrite_of_declined h s _ _ w (hex f (List.mem_cons_self _ _)) hyes
      (hno _ _)]
    simp only [reportedWritten, Bool.false_eq_true, if_false, afterFile]
    exact ih acc (askedWorld w (resolvePath h s f) f.Content)
      (fun g hg => hex g (List.mem_cons_of_mem _ hg))

/-- C6. Declined overwrite, with the auto-yes flag unset. For a path that exists and a
confirmation answered false without error, tryWrite returns (false, nil) in a world whose
filesystem is the one it started from; the write loop of Generate then goes on without
adding that path; and when every file of the batch exists and every confirmation is
answered false, Generate returns an empty list with no error and the filesystem is the
one the generator left. -/
theorem declined_overwrite (h : Host) (s : Settings) (hyes : s.yes = false) :
    (∀ file content w, IsExist w.files file = true →
      h.AskOne (askedWorld w file content) (overwritePrompt file) = .ok false →
      tryWrite h s file content w = (.ok false, askedWorld w file content) ∧
      (tryWrite h s file content w).2.files = w.files) ∧
    (∀ f files acc w, IsExist w.files (resolvePath h s f) = true →
      h.AskOne (askedWorld w (resolvePath h s f) f.Content)
        (overwritePrompt (resolvePath h s f)) = .ok false →
      Generate.loop h s (Generate.dir s) (f :: files) acc w =
        Generate.loop h s (Generate.dir s) files acc
          (askedWorld w (resolvePath h s f) f.Content)) ∧
    (∀ reg q w files w0, Generate.prepare h s reg q w = (.ok files, w0) →
      (∀ f ∈ files, IsExist w0.files (resolvePath h s f) = true) →
      (∀ w1 msg, h.AskOne w1 msg = .ok false) →
      (Generate h s reg q w).1 = .ok [] ∧ (Generate h s reg q w).2.files = w0.files) := by
  refine ⟨?_, ?_, ?_⟩
  · intro file content w hex hans
    have ht := tryWrite_of_declined h s file content w hex hyes hans
    exact ⟨ht, by rw [ht]; rfl⟩
  · intro f files acc w hex hans
    rw [loop_cons, tryWrite_of_declined h s _ _ w hex hyes hans]
    simp only [reportedWritten, Bool.false_eq_true, if_false, afterFile]
  · intro reg q w files w0 hprep hex hno
    rw [Generate_of_prepare h s reg q w files w0 hprep]
    obtain ⟨h1, h2⟩ := loop_all_declined h s hyes hno files [] w0 hex
    exact ⟨by simp only [h1], h2⟩

/-- Witness of C6: the first file of multiFile exists and the overwrite is declined. -/
theorem declined_overwrite_witness :
    tryWrite declines exSettings "/proj/py/a.txt" "A" worldWithA =
      (.ok false, askedWorld worldWithA "/proj/py/a.txt" "A") ∧
    (tryWrite declines exSettings "/proj/py/a.txt" "A" worldWithA).2.files =
      [("/proj/py/a.txt", "old")] :=
  (declined_overwrite declines exSettings rfl).1 "/proj/py/a.txt" "A" worldWithA
    (by decide) rfl

set_option maxRecDepth 4000 in
/-- C7, counterexample. The first file of the batch exists, the auto-yes flag is unset and
the confirmation collaborator fails when asked about it; yet Generate returns a path list
and no error, and the two later files were attempted and written. -/
theorem Generate_ask_failure_counterexample :
    IsExist worldWithA.files "/proj/py/a.txt" = true ∧ exSettings.yes = false ∧
    (∀ w msg, askFails.AskOne w msg = .error "not a terminal") ∧
    Event.AskOne (overwritePrompt "/proj/py/a.txt") ∈
      (Generate askFails exSettings [multiFile] twoSum worldWithA).2.trace ∧
    (Generate askFails exSettings [multiFile] twoSum worldWithA).1 =
      .ok ["/proj/py/b.txt", "/proj/py/c.txt"] ∧
    Event.tryWrite "/proj/py/b.txt" "B" ∈
      (Generate askFails exSettings [multiFile] twoSum worldWithA).2.trace ∧
    Event.tryWrite "/proj/py/c.txt" "C" ∈
      (Generate askFails exSettings [multiFile] twoSum worldWithA).2.trace :=
  ⟨by decide, rfl, fun _ _ => rfl, by decide, by decide, by decide, by decide⟩

/-- C7, amended. With the auto-yes flag unset, if the confirmation collaborator fails while
being asked about an existing file, tryWrite returns that error and leaves the filesystem
as it was; the write loop of Generate logs the failure and goes on with the later files
without adding the path; and once the generator has returned its batch, Generate returns
a path list with no error after one tryWrite call per file of the batch, in input order. -/
theorem ask_failure_skips_file (h : Host) (s : Settings) (f : FileOutput)
    (files : List FileOutput) (acc : List String) (w : World) (err : Error)
    (hyes : s.yes = false) (hex : IsExist w.files (resolvePath h s f) = true)
    (hans : h.AskOne (askedWorld w (resolvePath h s f) f.Content)
      (overwritePrompt (resolvePath h s f)) = .error err) :
    tryWrite h s (resolvePath h s f) f.Content w =
      (.error err, askedWorld w (resolvePath h s f) f.Content) ∧
    (tryWrite h s (resolvePath h s f) f.Content w).2.files = w.files ∧
    Generate.loop h s (Generate.dir s) (f :: files) acc w =
      Generate.loop h s (Generate.dir s) files acc
        ((askedWorld w (resolvePath h s f) f.Content).log
          (.logError (resolvePath h s f) err)) ∧
    (∀ reg q w1 batch w0, Generate.prepare h s reg q w1 = (.ok batch, w0) →
      ∃ paths w2 d, Generate h s reg q w1 = (.ok paths, w2) ∧ w2.trace = w0.trace ++ d ∧
        d.filterMap Event.attempt? = batch.map (resolvePath h s)) := by
  have ht := tryWrite_of_ask_error h s (resolvePath h s f) f.Content w err hex hyes hans
  refine ⟨ht, by rw [ht]; rfl, ?_, ?_⟩
  · rw [loop_cons, ht]
    simp only [reportedWritten, Bool.false_eq_true, if_false, afterFile]
  · intro reg q w1 batch w0 hprep
    obtain ⟨d, hd, hat, -⟩ := loop_trace h s batch [] w0
    exact ⟨_, _, d, Generate_of_prepare h s reg q w1 batch w0 hprep, hd, hat⟩

set_option maxRecDepth 4000 in
/-- Witness of C7 amended: the failure on the existing first file of multiFile is logged and
the loop goes on with the other two files. -/
theorem ask_failure_skips_file_witness :
    tryWrite askFails exSettings "/proj/py/a.txt" "A" worldWithA =
      (.error "not a terminal", askedWorld worldWithA "/proj/py/a.txt" "A") :=
  (ask_failure_skips_file askFails exSettings { Path := "a.txt", Content := "A" } [] []
    worldWithA "not a terminal" rfl (by decide) rfl).1

/-! ## Partial success -/

theorem tryWrite_of_confirmed (h : Host) (s : Settings) (file content : String) (w : World)
    (hconf : (confirmStep h s file ((w.log (.tryWrite file content)).log
      (.IsExist file))).1 = .ok true) :
    tryWrite h s file content w = performStep h file content
      (confirmStep h s file ((w.log (.tryWrite file content)).log (.IsExist file))).2 := by
  rw [tryWrite_eq]
  rcases hc : confirmStep h s file ((w.log (.tryWrite file content)).log (.IsExist file))
    with ⟨r, w1⟩
  rw [hc] at hconf
  simp only at hconf
  subst hconf
  rfl

/-- C8. Partial success. Once the generator has returned its batch, Generate returns a
path list with no error, after one tryWrite call per file of the batch in input order;
when tryWrite fails on a file, the result is what the files before it contributed followed
by what the files after it contribute, the failure being logged in between; and a
directory-creation failure or a write failure on a file tryWrite went on to write is such a
failure of tryWrite. -/
theorem Generate_partial_success (h : Host) (s : Settings) (reg : List Generator)
    (q : QuestionData) (w : World) (files : List FileOutput) (w0 : World)
    (hprep : Generate.prepare h s reg q w = (.ok files, w0)) :
    (∃ paths w2, Generate h s reg q w = (.ok paths, w2)) ∧
    (∃ d, (Generate h s reg q w).2.trace = w0.trace ++ d ∧
      d.filterMap Event.attempt? = files.map (resolvePath h s)) ∧
    (∀ before f after err, files = before ++ f :: after →
      (tryWrite h s (resolvePath h s f) f.Content
        (Generate.loop h s (Generate.dir s) before [] w0).2).1 = .error err →
      (Generate h s reg q w).1 =
        .ok ((Generate.loop h s (Generate.dir s) before [] w0).1 ++
          (Generate.loop h s (Generate.dir s) after []
            ((tryWrite h s (resolvePath h s f) f.Content
              (Generate.loop h s (Generate.dir s) before [] w0).2).2.log
                (.logError (resolvePath h s f) err))).1)) ∧
    (∀ file content w1 err,
      (confirmStep h s file ((w1.log (.tryWrite file content)).log (.IsExist file))).1 =
        .ok true →
      h.CreateIfNotExists ((confirmStep h s file ((w1.log (.tryWrite file content)).log
        (.IsExist file))).2.log (.CreateIfNotExists file)) file = some err →
      (tryWrite h s file content w1).1 = .error err) ∧
    (∀ file content w1,
      (confirmStep h s file ((w1.log (.tryWrite file content)).log (.IsExist file))).1 =
        .ok true →
      h.CreateIfNotExists ((confirmStep h s file ((w1.log (.tryWrite file content)).log
        (.IsExist file))).2.log (.CreateIfNotExists file)) file = none →
      h.WriteFile (((confirmStep h s file ((w1.log (.tryWrite file content)).log
        (.IsExist file))).2.log (.CreateIfNotExists file)).log (.WriteFile file content))
        file content ≠ .ok →
      ∃ err, (tryWrite h s file content w1).1 = .error err) := by
  have hgen := Generate_of_prepare h s reg q w files w0 hprep
  refine ⟨⟨_, _, hgen⟩, ?_, ?_, ?_, ?_⟩
  · obtain ⟨d, hd, hat, -⟩ := loop_trace h s files [] w0
    exact ⟨d, by rw [hgen]; exact hd, hat⟩
  · intro before f after err hfiles herr
    rw [hgen, hfiles, loop_append, loop_cons, loop_acc]
    simp only [herr, reportedWritten, Bool.false_eq_true, if_false, afterFile]
  · intro file content w1 err hconf hmk
    rw [tryWrite_of_confirmed h s file content w1 hconf]
    unfold performStep
    rw [hmk]
  · intro file content w1 hconf hmk hwr
    rw [tryWrite_of_confirmed h s file content w1 hconf]
    unfold performStep
    rw [hmk]
    simp only
    split
    · exact ⟨_, rfl⟩
    · exact ⟨_, rfl⟩
    · rename_i hok
      exact absurd hok hwr

set_option maxRecDepth 4000 in
/-- Witness of C8: writing the second of three files fails; the first and the third are
returned. -/
theorem Generate_partial_success_witness :
    (Generate secondWriteFails exSettings [multiFile] twoSum World.empty).1 =
      .ok ["/proj/py/a.txt", "/proj/py/c.txt"] := by
  have hprep : Generate.prepare secondWriteFails exSettings [multiFile] twoSum World.empty =
      (.ok [{ Path := "a.txt", Content := "A" }, { Path := "b.txt", Content := "B" },
            { Path := "c.txt", Content := "C" }],
        { files := [], trace := [.CheckLibrary, .GeneratorGenerate] }) := by decide
  have hthm := (Generate_partial_success secondWriteFails exSettings [multiFile] twoSum
    World.empty _ _ hprep).2.2.1 [{ Path := "a.txt", Content := "A" }]
    { Path := "b.txt", Content := "B" } [{ Path := "c.txt", Content := "C" }] "disk full"
    rfl (by decide)
  rw [hthm]
  decide

/-! ## The library prerequisite -/

/-- The first half of Generate once a generator is selected and its snippet is present. -/
theorem prepare_of_selected (h : Host) (s : Settings) (reg : List Generator)
    (q : QuestionData) (w : World) (gen : Generator)
    (hgen : GetGenerator h reg s.Gen = some gen) (hsnip : q.GetCodeSnippet gen.Slug ≠ "") :
    Generate.prepare h s reg q w =
      if gen.CheckLibrary w.files = true then
        ((gen.Generate q w.files).1,
          { files := (gen.Generate q w.files).2,
            trace := w.trace ++ [.CheckLibrary, .GeneratorGenerate] })
      else
        match (gen.GenerateLibrary w.files).1 with
        | some err =>
          (.error err, { files := (gen.GenerateLibrary w.files).2,
                         trace := w.trace ++ [.CheckLibrary, .GenerateLibrary] })
        | none =>
          ((gen.Generate q (gen.GenerateLibrary w.files).2).1,
            { files := (gen.Generate q (gen.GenerateLibrary w.files).2).2,
              trace := w.trace ++ [.CheckLibrary, .GenerateLibrary, .GeneratorGenerate] }) := by
  unfold Generate.prepare
  simp only [hgen, hsnip, if_false, World.log_files]
  by_cases hcl : gen.CheckLibrary w.files = true
  · simp [hcl, World.log]
  · simp only [hcl, Bool.not_eq_true] at hcl ⊢
    simp only [hcl, Bool.not_false, if_true, Bool.false_eq_true, if_false]
    rcases hlib : (gen.GenerateLibrary w.files).1 with _ | err
    · simp [World.log]
    · simp [World.log]

theorem Generate_trace_of_prepare (h : Host) (s : Settings) (reg : List Generator)
    (q : QuestionData) (w : World) (r : Except Error (List FileOutput)) (w0 : World)
    (hprep : Generate.prepare h s reg q w = (r, w0)) :
    ∃ d, (Generate h s reg q w).2.trace = w0.trace ++ d ∧ ∀ e ∈ d, e.ofWriteLoop = true := by
  cases r with
  | error err =>
    refine ⟨[], ?_, by simp⟩
    unfold Generate
    rw [hprep]
    simp
  | ok files =>
    rw [Generate_of_prepare h s reg q w files w0 hprep]
    obtain ⟨d, hd, -, hin⟩ := loop_trace h s files [] w0
    exact ⟨d, hd, hin⟩

/-- The record Generate adds once a generator is selected and its snippet is present: the
CheckLibrary call, the GenerateLibrary call when the library is missing, and then only the
call of the generator and events of the write loop. -/
theorem Generate_trace_of_selected (h : Host) (s : Settings) (reg : List Generator)
    (q : QuestionData) (w : World) (gen : Generator)
    (hgen : GetGenerator h reg s.Gen = some gen) (hsnip : q.GetCodeSnippet gen.Slug ≠ "") :
    ∃ d, (Generate h s reg q w).2.trace = w.trace ++ Event.CheckLibrary ::
        ((if gen.CheckLibrary w.files = true then [] else [Event.GenerateLibrary]) ++ d) ∧
      ∀ e ∈ d, e = Event.GeneratorGenerate ∨ e.ofWriteLoop = true := by
  have hprep := prepare_of_selected h s reg q w gen hgen hsnip
  by_cases hcl : gen.CheckLibrary w.files = true
  · simp only [hcl, if_true] at hprep ⊢
    obtain ⟨d, hd, hin⟩ := Generate_trace_of_prepare h s reg q w _ _ hprep
    refine ⟨Event.GeneratorGenerate :: d, by rw [hd]; simp, ?_⟩
    intro e he
    rcases List.mem_cons.1 he with rfl | he
    · exact Or.inl rfl
    · exact Or.inr (hin e he)
  · simp only [hcl, if_false] at hprep ⊢
    rcases hlib : (gen.GenerateLibrary w.files).1 with _ | err
    · rw [hlib] at hprep
      obtain ⟨d, hd, hin⟩ := Generate_trace_of_prepare h s reg q w _ _ hprep
      refine ⟨Event.GeneratorGenerate :: d, by rw [hd]; simp, ?_⟩
      intro e he
      rcases List.mem_cons.1 he with rfl | he
      · exact Or.inl rfl
      · exact Or.inr (hin e he)
    · rw [hlib] at hprep
      obtain ⟨d, hd, hin⟩ := Generate_trace_of_prepare h s reg q w _ _ hprep
      refine ⟨d, by rw [hd]; simp, ?_⟩
      intro e he
      exact Or.inr (hin e he)

/-- C9. For a selected generator and a question with a non-empty snippet, what Generate
adds to the record is the CheckLibrary call, then the GenerateLibrary call exactly when
CheckLibrary was false, then the rest, in which GenerateLibrary does not occur: it is
called if and only if CheckLibrary is false, at most once, and before the generator is
called and before any tryWrite or WriteFile. If GenerateLibrary returns an error, Generate
returns that error and no path list, and the record ends with the GenerateLibrary call:
neither the generator's Generate nor tryWrite was reached and no question file was
written. -/
theorem Generate_library_prerequisite (h : Host) (s : Settings) (reg : List Generator)
    (q : QuestionData) (w : World) (gen : Generator)
    (hgen : GetGenerator h reg s.Gen = some gen) (hsnip : q.GetCodeSnippet gen.Slug ≠ "") :
    (∃ d, (Generate h s reg q w).2.trace = w.trace ++ Event.CheckLibrary ::
        ((if gen.CheckLibrary w.files = true then [] else [Event.GenerateLibrary]) ++ d) ∧
      Event.GenerateLibrary ∉ d) ∧
    (Event.GenerateLibrary ∈ (Generate h s reg q w).2.trace.drop w.trace.length ↔
      gen.CheckLibrary w.files = false) ∧
    ((Generate h s reg q w).2.trace.drop w.trace.length).count Event.GenerateLibrary ≤ 1 ∧
    (∀ err, gen.CheckLibrary w.files = false → (gen.GenerateLibrary w.files).1 = some err →
      Generate h s reg q w =
        (.error err, { files := (gen.GenerateLibrary w.files).2,
                       trace := w.trace ++ [.CheckLibrary, .GenerateLibrary] })) := by
  obtain ⟨d, hd, hin⟩ := Generate_trace_of_selected h s reg q w gen hgen hsnip
  have hnot : Event.GenerateLibrary ∉ d := by
    intro hmem
    rcases hin _ hmem with hc | hc
    · cases hc
    · simp [Event.ofWriteLoop] at hc
  have hdrop : (Generate h s reg q w).2.trace.drop w.trace.length = Event.CheckLibrary ::
      ((if gen.CheckLibrary w.files = true then [] else [Event.GenerateLibrary]) ++ d) := by
    rw [hd, List.drop_left]
  refine ⟨⟨d, hd, hnot⟩, ?_, ?_, ?_⟩
  · rw [hdrop]
    by_cases hcl : gen.CheckLibrary w.files = true
    · simp [hcl, hnot]
    · simp [hcl]
  · rw [hdrop]
    by_cases hcl : gen.CheckLibrary w.files = true
    · simp [hcl, List.count_cons, List.count_eq_zero_of_not_mem hnot]
    · simp [hcl, List.count_cons, List.count_eq_zero_of_not_mem hnot]
  · intro err hcl herr
    have hprep := prepare_of_selected h s reg q w gen hgen hsnip
    simp only [hcl, Bool.false_eq_true, if_false, herr] at hprep
    unfold Generate
    rw [hprep]

/-- Witness of C9: the library of needsLibrary is missing and cannot be generated. -/
theorem Generate_library_prerequisite_witness :
    Generate exHost exSettings [needsLibrary] twoSum World.empty =
      (.error "cannot copy library",
        { files := [], trace := [.CheckLibrary, .GenerateLibrary] }) :=
  (Generate_library_prerequisite exHost exSettings [needsLibrary] twoSum World.empty
    needsLibrary rfl (by decide)).2.2.2 "cannot copy library" rfl rfl

/-! ## Where the files are written -/

set_option maxRecDepth 4000 in
/-- C10, counterexample. The token py selects the generator with slug python3 and no
out_dir override is set; the file is written under the directory py, named after the
token, and nothing is written under the directory python3. -/
theorem Generate_dir_counterexample :
    (GetGenerator exHost exRegistry exSettings.Gen).map (fun g => g.Slug) = some "python3" ∧
    exSettings.GetString (exSettings.Gen ++ ".out_dir") = "" ∧
    (Generate exHost exSettings exRegistry twoSum World.empty).1 =
      .ok ["/proj/py/two-sum.py"] ∧
    exHost.Join exSettings.ProjectRoot "python3" (twoSum.TitleSlug ++ python3.extension) =
      "/proj/python3/two-sum.py" ∧
    IsExist (Generate exHost exSettings exRegistry twoSum World.empty).2.files
      "/proj/py/two-sum.py" = true ∧
    IsExist (Generate exHost exSettings exRegistry twoSum World.empty).2.files
      "/proj/python3/two-sum.py" = false :=
  ⟨by decide, rfl, by decide, by decide, by decide, by decide⟩

/-- C10, amended. When the language token selects a default generator and Generate
returns without error, every returned path is the join of the project root, the output
directory and the title slug followed by the extension, and no other path of the
filesystem has changed; the output directory is the configured out_dir override when one
is set and otherwise the configured language token itself, which is the generator's slug
when the token is the full slug. -/
theorem Generate_default_paths (h : Host) (s s2 : Settings) (reg : List Generator)
    (q : QuestionData) (w : World) (l : baseLang) (paths : List String) (w2 : World)
    (hgen : GetGenerator h reg s.Gen = some (l.toGenerator s2))
    (hrun : Generate h s reg q w = (.ok paths, w2)) :
    Generate.dir s = (if s.GetString (s.Gen ++ ".out_dir") = "" then s.Gen
      else s.GetString (s.Gen ++ ".out_dir")) ∧
    (s.GetString (s.Gen ++ ".out_dir") = "" → s.Gen = l.slug → Generate.dir s = l.slug) ∧
    (∀ p ∈ paths, p = h.Join s.ProjectRoot (Generate.dir s) (q.TitleSlug ++ l.extension)) ∧
    (∀ p, p ≠ h.Join s.ProjectRoot (Generate.dir s) (q.TitleSlug ++ l.extension) →
      w2.files.lookup p = w.files.lookup p) := by
  have hsnip : q.GetCodeSnippet (l.toGenerator s2).Slug ≠ "" := by
    intro hc
    have := Generate_of_empty_snippet h s reg q w _ hgen hc
    rw [this] at hrun
    simp at hrun
  obtain ⟨files, w0, hprep, hloop⟩ := Generate_ok_inv h s reg q w paths w2 hrun
  have hprep2 := prepare_of_selected h s reg q w _ hgen hsnip
  rw [hprep] at hprep2
  simp only [baseLang.toGenerator, baseLang.CheckLibrary, if_true, baseLang.Generate,
    Prod.mk.injEq, Except.ok.injEq] at hprep2
  obtain ⟨hfiles, hw0⟩ := hprep2
  have hdir : Generate.dir s = (if s.GetString (s.Gen ++ ".out_dir") = "" then s.Gen
      else s.GetString (s.Gen ++ ".out_dir")) := rfl
  refine ⟨hdir, ?_, ?_, ?_⟩
  · intro hno htok
    rw [hdir, if_pos hno, htok]
  · intro p hp
    have hout := loop_outcomes h s files [] w0
    rw [hloop] at hout
    simp only [List.nil_append] at hout
    have hsub : paths.Sublist (files.map (resolvePath h s)) := by
      rw [hout, ← writeOutcomes_paths h s files w0]
      exact List.Sublist.map _ (List.filter_sublist _)
    have hmem := hsub.subset hp
    rw [hfiles] at hmem
    simpa [resolvePath] using hmem
  · intro p hp
    have hframe := loop_frame h s files [] w0 p (by
      intro f hf
      rw [hfiles] at hf
      rw [List.mem_singleton.1 hf]
      exact hp)
    rw [hloop] at hframe
    rw [hframe, hw0]

set_option maxRecDepth 4000 in
/-- Witness of C10 amended: python3 selected by the token py writes /proj/py/two-sum.py. -/
theorem Generate_default_paths_witness :
    "/proj/py/two-sum.py" = exHost.Join exSettings.ProjectRoot (Generate.dir exSettings)
      (twoSum.TitleSlug ++ python3.extension) :=
  (Generate_default_paths exHost exSettings exSettings exRegistry twoSum World.empty python3
    ["/proj/py/two-sum.py"]
    (Generate exHost exSettings exRegistry twoSum World.empty).2 rfl (by decide)).2.2.1
    "/proj/py/two-sum.py" (List.mem_singleton_self _)

/-! ## Marker lines of the generated content -/

/-- The lines of the content of the default generator, for marker lines without newline. -/
theorem content_lines (s : Settings) (l : baseLang) (q : QuestionData)
    (hB : '\n' ∉ (l.lineComment ++ " " ++ s.CodeBeginMark).data)
    (hE : '\n' ∉ (l.lineComment ++ " " ++ s.CodeEndMark).data) :
    splitLines (l.generateComments s q ++ "\n" ++
        l.generateCode q [addCodeMark s l.lineComment] ++ "\n").data =
      splitLines (l.generateComments s q).data ++
        (l.lineComment ++ " " ++ s.CodeBeginMark).data ::
          ([] :: (splitLines (q.GetCodeSnippet l.Slug).data ++ [[]]) ++
            (l.lineComment ++ " " ++ s.CodeEndMark).data :: [[]]) := by
  have hdata : (l.generateComments s q ++ "\n" ++
      l.generateCode q [addCodeMark s l.lineComment] ++ "\n").data =
      (l.generateComments s q).data ++ '\n' ::
        ((l.lineComment ++ " " ++ s.CodeBeginMark).data ++ '\n' :: '\n' ::
          ((q.GetCodeSnippet l.Slug).data ++ '\n' :: '\n' ::
            ((l.lineComment ++ " " ++ s.CodeEndMark).data ++ ['\n']))) := by
    simp [baseLang.generateCode, addCodeMark, String.data_append, List.append_assoc]
  rw [hdata, splitLines_content _ _ _ _ hB hE]

set_option maxRecDepth 8000 in
/-- C11, counterexample. The description of the question is a line equal to the begin
marker, and the generated content has two lines equal to the begin marker. -/
theorem marker_twice_counterexample :
    (python3.Generate exSettings markerQuestion).map (fun files => files.map (fun f =>
      (splitLines f.Content.data).count "# @lc code=begin".data)) = .ok [2] := by
  decide

/-- C11, amended. For a default generator whose two marker lines are single lines with
distinct marks, and a question for which no line of the header block and no line of the
snippet equals a marker line, the lines of the generated content are the header lines, the
begin-marker line, a blank line, the snippet lines, a blank line, the end-marker line and
the empty piece after the last newline: the begin-marker line and the end-marker line each
occur exactly once. -/
theorem marker_lines_once (s : Settings) (l : baseLang) (q : QuestionData)
    (hB : '\n' ∉ (l.lineComment ++ " " ++ s.CodeBeginMark).data)
    (hE : '\n' ∉ (l.lineComment ++ " " ++ s.CodeEndMark).data)
    (hBE : s.CodeBeginMark ≠ s.CodeEndMark)
    (hhB : (l.lineComment ++ " " ++ s.CodeBeginMark).data ∉
      splitLines (l.generateComments s q).data)
    (hhE : (l.lineComment ++ " " ++ s.CodeEndMark).data ∉
      splitLines (l.generateComments s q).data)
    (hsB : (l.lineComment ++ " " ++ s.CodeBeginMark).data ∉
      splitLines (q.GetCodeSnippet l.Slug).data)
    (hsE : (l.lineComment ++ " " ++ s.CodeEndMark).data ∉
      splitLines (q.GetCodeSnippet l.Slug).data) :
    ∃ content,
      l.Generate s q = .ok [{ Path := q.TitleSlug ++ l.extension, Content := content }] ∧
      splitLines content.data = splitLines (l.generateComments s q).data ++
        (l.lineComment ++ " " ++ s.CodeBeginMark).data ::
          ([] :: (splitLines (q.GetCodeSnippet l.Slug).data ++ [[]]) ++
            (l.lineComment ++ " " ++ s.CodeEndMark).data :: [[]]) ∧
      (splitLines content.data).count (l.lineComment ++ " " ++ s.CodeBeginMark).data = 1 ∧
      (splitLines content.data).count (l.lineComment ++ " " ++ s.CodeEndMark).data = 1 := by
  have hlines := content_lines s l q hB hE
  have hne : (l.lineComment ++ " " ++ s.CodeBeginMark).data ≠
      (l.lineComment ++ " " ++ s.CodeEndMark).data := by
    intro hd
    simp only [String.data_append, List.append_assoc, List.append_cancel_left_eq] at hd
    exact hBE (String.ext hd)
  have hB0 : (l.lineComment ++ " " ++ s.CodeBeginMark).data ≠ [] := by
    simp [String.data_append]
  have hE0 : (l.lineComment ++ " " ++ s.CodeEndMark).data ≠ [] := by
    simp [String.data_append]
  have hBE2 : s.CodeBeginMark.data ≠ s.CodeEndMark.data := fun hd => hBE (String.ext hd)
  refine ⟨_, rfl, hlines, ?_, ?_⟩
  · rw [hlines]
    simp only [List.count_append, List.count_cons, List.count_nil,
      List.count_eq_zero_of_not_mem hhB, List.count_eq_zero_of_not_mem hsB]
    simp [hne.symm, hB0.symm, hB0, hBE2.symm]
  · rw [hlines]
    simp only [List.count_append, List.count_cons, List.count_nil,
      List.count_eq_zero_of_not_mem hhE, List.count_eq_zero_of_not_mem hsE]
    simp [hne, hE0.symm, hE0, hBE2]

set_option maxRecDepth 8000 in
/-- Witness of C11 amended: the python generator on two-sum. -/
theorem marker_lines_once_witness :
    ∃ content,
      python3.Generate exSettings twoSum =
        .ok [{ Path := twoSum.TitleSlug ++ python3.extension, Content := content }] ∧
      splitLines content.data = splitLines (python3.generateComments exSettings twoSum).data ++
        (python3.lineComment ++ " " ++ exSettings.CodeBeginMark).data ::
          ([] :: (splitLines (twoSum.GetCodeSnippet python3.Slug).data ++ [[]]) ++
            (python3.lineComment ++ " " ++ exSettings.CodeEndMark).data :: [[]]) ∧
      (splitLines content.data).count
        (python3.lineComment ++ " " ++ exSettings.CodeBeginMark).data = 1 ∧
      (splitLines content.data).count
        (python3.lineComment ++ " " ++ exSettings.CodeEndMark).data = 1 :=
  marker_lines_once exSettings python3 twoSum (by decide) (by decide) (by decide)
    (by decide) (by decide) (by decide) (by decide)

/-! ## The default generator on a question without snippet -/

/-- C12, counterexample. Two-sum has no golang snippet, and the default Generate of golang
returns one file and no error. -/
theorem baseLang_Generate_no_snippet_counterexample :
    twoSum.GetCodeSnippet golang.Slug = "" ∧
    (golang.Generate exSettings twoSum).map (fun files => files.map (fun f => f.Path)) =
      .ok ["two-sum.go"] :=
  ⟨rfl, rfl⟩

/-- C12, amended. For a question with an empty snippet for the generator's slug, the
default baseLang.Generate does not fail: it returns one FileOutput whose code region is
the two marker lines around an empty snippet. The empty snippet is rejected one level up:
when the language token selects this generator, the pipeline-level Generate returns the
snippet-missing error in the world it was called in, the generator not being called. -/
theorem baseLang_Generate_empty_snippet (s : Settings) (l : baseLang) (q : QuestionData)
    (hempty : q.GetCodeSnippet l.Slug = "") :
    l.Generate s q = .ok [{ Path := q.TitleSlug ++ l.extension,
                            Content := l.generateComments s q ++ "\n" ++
                              (l.lineComment ++ " " ++ s.CodeBeginMark ++ "\n\n" ++ "" ++
                                "\n\n" ++ l.lineComment ++ " " ++ s.CodeEndMark) ++ "\n" }] ∧
    (∀ (h : Host) (s1 : Settings) (reg : List Generator) (w : World),
      GetGenerator h reg s1.Gen = some (l.toGenerator s) →
      Generate h s1 reg q w =
        (.error ("no " ++ s1.Gen ++ " code snippet found for " ++ q.TitleSlug), w)) := by
  constructor
  · simp only [baseLang.Generate, baseLang.generateCode, addCodeMark, List.foldl, hempty]
  · intro h s1 reg w hgen
    exact Generate_of_empty_snippet h s1 reg q w _ hgen hempty

/-- Witness of C12 amended: golang on two-sum. -/
theorem baseLang_Generate_empty_snippet_witness :
    Generate exHost goSettings exRegistry twoSum worldWithA =
      (.error ("no " ++ goSettings.Gen ++ " code snippet found for " ++ twoSum.TitleSlug),
        worldWithA) :=
  (baseLang_Generate_empty_snippet exSettings golang twoSum rfl).2 exHost goSettings
    exRegistry worldWithA rfl

/-! ## The header block -/

/-- C15. The header block is the join with newlines of, in order: the authorship line with
the formatted time, the URL line, the contest URL line if and only if the question is a
contest question, an empty line, the block comment start, the title line, an empty line,
the formatted description, the block comment end and a final empty line. -/
theorem generateComments_lines (s : Settings) (l : baseLang) (q : QuestionData) :
    l.generateComments s q =
      Join ([l.lineComment ++ " Created by " ++ s.Author ++ " at " ++ s.Now,
             l.lineComment ++ " " ++ q.Url] ++
            (if q.IsContest = true then [l.lineComment ++ " " ++ q.ContestUrl] else []) ++
            ["", l.blockCommentStart,
             q.QuestionFrontendId ++ "." ++ q.GetTitle ++ " (" ++ q.Difficulty ++ ")",
             "", q.GetFormattedContent, l.blockCommentEnd, ""]) "\n" ∧
    (q.IsContest = false → l.generateComments s q =
      l.lineComment ++ " Created by " ++ s.Author ++ " at " ++ s.Now ++ "\n" ++
        (l.lineComment ++ " " ++ q.Url ++ "\n" ++
          ("" ++ "\n" ++ (l.blockCommentStart ++ "\n" ++
            (q.QuestionFrontendId ++ "." ++ q.GetTitle ++ " (" ++ q.Difficulty ++ ")" ++ "\n" ++
              ("" ++ "\n" ++ (q.GetFormattedContent ++ "\n" ++
                (l.blockCommentEnd ++ "\n" ++ "")))))))) ∧
    (q.IsContest = true → l.generateComments s q =
      l.lineComment ++ " Created by " ++ s.Author ++ " at " ++ s.Now ++ "\n" ++
        (l.lineComment ++ " " ++ q.Url ++ "\n" ++
          (l.lineComment ++ " " ++ q.ContestUrl ++ "\n" ++
            ("" ++ "\n" ++ (l.blockCommentStart ++ "\n" ++
              (q.QuestionFrontendId ++ "." ++ q.GetTitle ++ " (" ++ q.Difficulty ++ ")" ++
                "\n" ++ ("" ++ "\n" ++ (q.GetFormattedContent ++ "\n" ++
                  (l.blockCommentEnd ++ "\n" ++ ""))))))))) := by
  refine ⟨?_, ?_, ?_⟩
  · unfold baseLang.generateComments
    cases q.IsContest <;> rfl
  · intro hc
    unfold baseLang.generateComments
    rw [hc]
    rfl
  · intro hc
    unfold baseLang.generateComments
    rw [hc]
    rfl

/-! ## Registry lookup on the empty token and on the three names -/

theorem ToLower_empty (lower : Char → Char) : ToLower lower "" = "" := rfl

theorem Matches_empty (l : Generator) : Matches "" l :=
  Or.inl (List.nil_prefix)

/-- C19. On a non-empty registry GetGenerator on the empty token returns the first
registered generator; it returns nil on the empty token exactly when the registry is
empty; and with an empty language token the pipeline-level Generate goes on with the first
generator, as it does on the registry of that generator alone. -/
theorem GetGenerator_empty_token (h : Host) :
    (∀ g rest, GetGenerator h (g :: rest) "" = some g) ∧
    (∀ reg, GetGenerator h reg "" = none ↔ reg = []) ∧
    (∀ (s : Settings) g rest q w, s.Gen = "" →
      Generate h s (g :: rest) q w = Generate h s [g] q w) := by
  have hfirst : ∀ g rest, GetGenerator h (g :: rest) "" = some g := by
    intro g rest
    have := GetGenerator_loop_first (ToLower h.lower "") [] rest g (by simp)
      (by rw [ToLower_empty]; exact Matches_empty g)
    simpa [GetGenerator] using this
  refine ⟨hfirst, ?_, ?_⟩
  · intro reg
    cases reg with
    | nil => simp [GetGenerator, GetGenerator.loop]
    | cons g rest => simp [hfirst g rest]
  · intro s g rest q w hs
    unfold Generate Generate.prepare
    rw [hs, hfirst g rest, hfirst g []]

/-- C14, counterexample. The token C+ is a case-insensitive prefix of the full name C++ of
the registered generator cpp, and GetGenerator returns nil for it. -/
theorem GetGenerator_full_name_counterexample :
    HasPrefix (ToLower exHost.lower cpp.Name) (ToLower exHost.lower "C+") = true ∧
    (GetGenerator exHost [cpp.toGenerator exSettings] "C+").isNone = true :=
  ⟨by decide, by decide⟩

/-- C14, amended. For every registered generator and every token whose lowered form is a
prefix of the generator's short name or of its slug, GetGenerator returns a generator that
matches the lowered token, and it returns that very generator when no generator registered
before it matches. The full name is not consulted, and the registered names are compared
as they are. -/
theorem GetGenerator_accepts_short_name_and_slug (h : Host) (reg : List Generator)
    (token : String) (g : Generator) (hg : g ∈ reg)
    (hm : (ToLower h.lower token).data <+: g.ShortName.data ∨
      (ToLower h.lower token).data <+: g.Slug.data) :
    (∃ g1, GetGenerator h reg token = some g1 ∧ g1 ∈ reg ∧
      Matches (ToLower h.lower token) g1) ∧
    (∀ before after, reg = before ++ g :: after →
      (∀ x ∈ before, ¬ Matches (ToLower h.lower token) x) →
      GetGenerator h reg token = some g) := by
  constructor
  · cases hres : GetGenerator h reg token with
    | none =>
      have hnone := (GetGenerator_loop_none (ToLower h.lower token) reg).1 hres
      exact absurd hm (hnone g hg)
    | some g1 =>
      obtain ⟨before, after, hreg, -, hmatch⟩ :=
        GetGenerator_loop_some (ToLower h.lower token) reg g1 hres
      exact ⟨g1, rfl, by rw [hreg]; simp, hmatch⟩
  · intro before after hreg hbefore
    subst hreg
    exact GetGenerator_loop_first _ before after g hbefore hm

/-- Witness of C14 amended: the token PYTH is, lowered, a prefix of the slug python3. -/
theorem GetGenerator_accepts_short_name_and_slug_witness :
    GetGenerator exHost exRegistry "PYTH" = some (python3.toGenerator exSettings) :=
  (GetGenerator_accepts_short_name_and_slug exHost exRegistry "PYTH"
    (python3.toGenerator exSettings) (by simp [exRegistry])
    (Or.inr (by decide))).2 [golang.toGenerator exSettings] [] rfl
    (by intro x hx; rw [List.mem_singleton.1 hx]; unfold Matches; decide)

/-! ## Writing without a prompt -/

theorem confirmStep_free (h : Host) (s : Settings) (file : String) (w : World)
    (hfree : s.yes = true ∨ IsExist w.files file = false) :
    confirmStep h s file w = (.ok true, w) := by
  unfold confirmStep
  rcases hfree with hyes | hex
  · simp [hyes]
  · simp [hex]

theorem tryWrite_of_free (h : Host) (s : Settings) (file content : String) (w : World)
    (hfree : s.yes = true ∨ IsExist w.files file = false) :
    tryWrite h s file content w =
      performStep h file content ((w.log (.tryWrite file content)).log (.IsExist file)) := by
  rw [tryWrite_eq, confirmStep_free h s file _ (by simpa using hfree)]
  rfl

theorem performStep_ok (h : Host) (file content : String) (w : World)
    (hmk : h.CreateIfNotExists (w.log (.CreateIfNotExists file)) file = none)
    (hwr : h.WriteFile ((w.log (.CreateIfNotExists file)).log (.WriteFile file content))
      file content = .ok) :
    performStep h file content w =
      (.ok true, { files := w.files.write file content,
                   trace := w.trace ++ [.CreateIfNotExists file, .WriteFile file content,
                     .logInfo file] }) := by
  unfold performStep
  rw [hmk]
  simp only
  rw [hwr]

/-- The writing step records the directory creation first and then only the write and the
log record of its success. -/
theorem performStep_trace_kinds (h : Host) (file content : String) (w : World) :
    ∃ d, (performStep h file content w).2.trace =
        w.trace ++ Event.CreateIfNotExists file :: d ∧
      ∀ e ∈ d, e = Event.WriteFile file content ∨ e = Event.logInfo file := by
  unfold performStep
  split
  · exact ⟨[], rfl, by simp⟩
  · split
    · exact ⟨[.WriteFile file content], by simp, by simp⟩
    · exact ⟨[.WriteFile file content], rfl, by simp⟩
    · exact ⟨[.WriteFile file content, .logInfo file], rfl, by simp⟩

/-- C16. If the auto-yes flag is set or the path does not exist, tryWrite does not invoke
the confirmation collaborator and proceeds to write: after the existence check its next
call is the directory creation, and no AskOne call is recorded. When the directory
creation and the write succeed, it returns (true, nil) and the file at the path then holds
exactly the content. -/
theorem tryWrite_without_prompt (h : Host) (s : Settings) (file content : String) (w : World)
    (hfree : s.yes = true ∨ IsExist w.files file = false) :
    (∃ d, (tryWrite h s file content w).2.trace =
        w.trace ++ [.tryWrite file content, .IsExist file, .CreateIfNotExists file] ++ d ∧
      ∀ e ∈ d, e = Event.WriteFile file content ∨ e = Event.logInfo file) ∧
    (∀ msg, Event.AskOne msg ∉ (tryWrite h s file content w).2.trace.drop w.trace.length) ∧
    (h.CreateIfNotExists (((w.log (.tryWrite file content)).log (.IsExist file)).log
        (.CreateIfNotExists file)) file = none →
      h.WriteFile ((((w.log (.tryWrite file content)).log (.IsExist file)).log
        (.CreateIfNotExists file)).log (.WriteFile file content)) file content = .ok →
      (tryWrite h s file content w).1 = .ok true ∧
      (tryWrite h s file content w).2.files = w.files.write file content ∧
      (tryWrite h s file content w).2.files.lookup file = some content) := by
  have ht := tryWrite_of_free h s file content w hfree
  obtain ⟨d, hd, hkinds⟩ := performStep_trace_kinds h file content
    ((w.log (.tryWrite file content)).log (.IsExist file))
  have htrace : (tryWrite h s file content w).2.trace =
      w.trace ++ [.tryWrite file content, .IsExist file, .CreateIfNotExists file] ++ d := by
    rw [ht, hd]
    simp
  refine ⟨⟨d, htrace, hkinds⟩, ?_, ?_⟩
  · intro msg hmem
    rw [htrace, List.append_assoc, List.drop_left] at hmem
    simp only [List.cons_append, List.nil_append, List.mem_cons] at hmem
    rcases hmem with hc | hc | hc | hc
    · cases hc
    · cases hc
    · cases hc
    · rcases hkinds _ hc with hk | hk <;> cases hk
  · intro hmk hwr
    rw [ht, performStep_ok h file content _ hmk hwr]
    refine ⟨rfl, rfl, ?_⟩
    simp [lookup_write]

/-- Witness of C16: a new file on a host where nothing fails. -/
theorem tryWrite_without_prompt_witness :
    (tryWrite exHost exSettings "/proj/py/two-sum.py" "pass" World.empty).1 = .ok true ∧
    (tryWrite exHost exSettings "/proj/py/two-sum.py" "pass" World.empty).2.files =
      World.empty.files.write "/proj/py/two-sum.py" "pass" ∧
    (tryWrite exHost exSettings "/proj/py/two-sum.py" "pass" World.empty).2.files.lookup
      "/proj/py/two-sum.py" = some "pass" :=
  (tryWrite_without_prompt exHost exSettings "/proj/py/two-sum.py" "pass" World.empty
    (Or.inr rfl)).2.2 rfl rfl

/-! ## Regeneration -/

/-- The header block is the authorship line, a newline, and a rest that depends neither on
the author nor on the time. -/
theorem generateComments_first_line (l : baseLang) (q : QuestionData) :
    ∃ rest, ∀ s : Settings, l.generateComments s q =
      l.lineComment ++ " Created by " ++ s.Author ++ " at " ++ s.Now ++ "\n" ++ rest := by
  cases hc : q.IsContest with
  | false =>
    refine ⟨Join [l.lineComment ++ " " ++ q.Url, "", l.blockCommentStart,
      q.QuestionFrontendId ++ "." ++ q.GetTitle ++ " (" ++ q.Difficulty ++ ")", "",
      q.GetFormattedContent, l.blockCommentEnd, ""] "\n", fun s => ?_⟩
    unfold baseLang.generateComments
    rw [hc]
    rfl
  | true =>
    refine ⟨Join [l.lineComment ++ " " ++ q.Url, l.lineComment ++ " " ++ q.ContestUrl, "",
      l.blockCommentStart,
      q.QuestionFrontendId ++ "." ++ q.GetTitle ++ " (" ++ q.Difficulty ++ ")", "",
      q.GetFormattedContent, l.blockCommentEnd, ""] "\n", fun s => ?_⟩
    unfold baseLang.generateComments
    rw [hc]
    rfl

/-- A run of Generate for a selected default generator, with the auto-yes flag set and no
failure of directory creation or writing: one file is written, without a prompt. -/
theorem Generate_default_run (h : Host) (s sg : Settings) (reg : List Generator)
    (l : baseLang) (q : QuestionData) (w : World) (hyes : s.yes = true)
    (hmk : ∀ w1 file, h.CreateIfNotExists w1 file = none)
    (hwr : ∀ w1 file content, h.WriteFile w1 file content = .ok)
    (hgen : GetGenerator h reg s.Gen = some (l.toGenerator sg))
    (hsnip : q.GetCodeSnippet l.Slug ≠ "") :
    Generate h s reg q w =
      (.ok [h.Join s.ProjectRoot (Generate.dir s) (q.TitleSlug ++ l.extension)],
        { files := w.files.write
            (h.Join s.ProjectRoot (Generate.dir s) (q.TitleSlug ++ l.extension))
            (l.generateComments sg q ++ "\n" ++
              l.generateCode q [addCodeMark sg l.lineComment] ++ "\n"),
          trace := w.trace ++
            [.CheckLibrary, .GeneratorGenerate,
             .tryWrite (h.Join s.ProjectRoot (Generate.dir s) (q.TitleSlug ++ l.extension))
               (l.generateComments sg q ++ "\n" ++
                 l.generateCode q [addCodeMark sg l.lineComment] ++ "\n"),
             .IsExist (h.Join s.ProjectRoot (Generate.dir s) (q.TitleSlug ++ l.extension)),
             .CreateIfNotExists
               (h.Join s.ProjectRoot (Generate.dir s) (q.TitleSlug ++ l.extension)),
             .WriteFile (h.Join s.ProjectRoot (Generate.dir s) (q.TitleSlug ++ l.extension))
               (l.generateComments sg q ++ "\n" ++
                 l.generateCode q [addCodeMark sg l.lineComment] ++ "\n"),
             .logInfo
               (h.Join s.ProjectRoot (Generate.dir s) (q.TitleSlug ++ l.extension))] }) := by
  have hprep := prepare_of_selected h s reg q w (l.toGenerator sg) hgen hsnip
  simp only [baseLang.toGenerator, baseLang.CheckLibrary, if_true, baseLang.Generate] at hprep
  rw [Generate_of_prepare h s reg q w _ _ hprep, loop_cons,
    tryWrite_of_free h s _ _ _ (Or.inl hyes), performStep_ok h _ _ _ (hmk _ _) (hwr _ _ _)]
  simp [reportedWritten, afterFile, Generate.loop, resolvePath, World.log]

/-- C13. Idempotent regeneration of a default generator at two generation times. The two
contents are the authorship line of their time, a newline, and one and the same rest, so
that, the authorship lines being single lines, they agree on every line after the first;
the code regions are identical. With the auto-yes flag set, no failure of directory
creation or writing, and a non-empty snippet, the first run returns the one resolved path,
the second run, made in the world the first one left, returns the same path list,
records no AskOne call, and leaves the file holding the content of the second time. -/
theorem regeneration_idempotent (h : Host) (s : Settings) (t2 : String)
    (reg1 reg2 : List Generator) (l : baseLang) (q : QuestionData) (w : World)
    (hyes : s.yes = true)
    (hmk : ∀ w1 file, h.CreateIfNotExists w1 file = none)
    (hwr : ∀ w1 file content, h.WriteFile w1 file content = .ok)
    (hgen1 : GetGenerator h reg1 s.Gen = some (l.toGenerator s))
    (hgen2 : GetGenerator h reg2 s.Gen = some (l.toGenerator { s with Now := t2 }))
    (hsnip : q.GetCodeSnippet l.Slug ≠ "") :
    (∃ c1 c2 rest,
      l.Generate s q = .ok [{ Path := q.TitleSlug ++ l.extension, Content := c1 }] ∧
      l.Generate { s with Now := t2 } q =
        .ok [{ Path := q.TitleSlug ++ l.extension, Content := c2 }] ∧
      c1 = l.lineComment ++ " Created by " ++ s.Author ++ " at " ++ s.Now ++ "\n" ++ rest ∧
      c2 = l.lineComment ++ " Created by " ++ s.Author ++ " at " ++ t2 ++ "\n" ++ rest ∧
      ('\n' ∉ (l.lineComment ++ " Created by " ++ s.Author ++ " at " ++ s.Now).data →
        '\n' ∉ (l.lineComment ++ " Created by " ++ s.Author ++ " at " ++ t2).data →
        (splitLines c1.data).tail = (splitLines c2.data).tail)) ∧
    l.generateCode q [addCodeMark s l.lineComment] =
      l.generateCode q [addCodeMark { s with Now := t2 } l.lineComment] ∧
    (Generate h s reg1 q w).1 =
      .ok [h.Join s.ProjectRoot (Generate.dir s) (q.TitleSlug ++ l.extension)] ∧
    (Generate h { s with Now := t2 } reg2 q (Generate h s reg1 q w).2).1 =
      (Generate h s reg1 q w).1 ∧
    (∀ msg, Event.AskOne msg ∉
      (Generate h { s with Now := t2 } reg2 q (Generate h s reg1 q w).2).2.trace.drop
        (Generate h s reg1 q w).2.trace.length) ∧
    (Generate h { s with Now := t2 } reg2 q (Generate h s reg1 q w).2).2.files.lookup
        (h.Join s.ProjectRoot (Generate.dir s) (q.TitleSlug ++ l.extension)) =
      some (l.generateComments { s with Now := t2 } q ++ "\n" ++
        l.generateCode q [addCodeMark { s with Now := t2 } l.lineComment] ++ "\n") := by
  obtain ⟨hrest, hheader⟩ := generateComments_first_line l q
  have hrun1 := Generate_default_run h s s reg1 l q w hyes hmk hwr hgen1 hsnip
  have hrun2 := Generate_default_run h { s with Now := t2 } { s with Now := t2 } reg2 l q
    (Generate h s reg1 q w).2 hyes hmk hwr hgen2 hsnip
  refine ⟨⟨_, _, hrest ++ "\n" ++ l.generateCode q [addCodeMark s l.lineComment] ++ "\n",
    rfl, rfl, ?_, ?_, ?_⟩, rfl, ?_, ?_, ?_, ?_⟩
  · rw [hheader s]
    apply String.ext
    simp [String.data_append, List.append_assoc]
  · rw [hheader { s with Now := t2 }]
    apply String.ext
    simp [String.data_append, List.append_assoc, baseLang.generateCode, addCodeMark]
  · intro h1 h2
    have e1 : (l.generateComments s q ++ "\n" ++
        l.generateCode q [addCodeMark s l.lineComment] ++ "\n").data =
        (l.lineComment ++ " Created by " ++ s.Author ++ " at " ++ s.Now).data ++ '\n' ::
          (hrest ++ "\n" ++ l.generateCode q [addCodeMark s l.lineComment] ++ "\n").data := by
      rw [hheader s]
      simp [String.data_append, List.append_assoc]
    have e2 : (l.generateComments { s with Now := t2 } q ++ "\n" ++
        l.generateCode q [addCodeMark { s with Now := t2 } l.lineComment] ++ "\n").data =
        (l.lineComment ++ " Created by " ++ s.Author ++ " at " ++ t2).data ++ '\n' ::
          (hrest ++ "\n" ++ l.generateCode q [addCodeMark s l.lineComment] ++ "\n").data := by
      rw [hheader { s with Now := t2 }]
      simp [String.data_append, List.append_assoc, baseLang.generateCode, addCodeMark]
    rw [e1, e2, splitLines_append_newline, splitLines_append_newline,
      splitLines_single _ h1, splitLines_single _ h2]
    rfl
  · rw [hrun1]
  · rw [hrun2, hrun1]
    rfl
  · intro msg hmem
    rw [hrun2, List.drop_left] at hmem
    simp at hmem
  · rw [hrun2]
    simp only [lookup_write]
    rw [if_pos]
    rfl

/-- Witness of C13: python on two-sum, generated twice one minute apart. -/
theorem regeneration_idempotent_witness :
    (Generate exHost yesSettings [python3.toGenerator yesSettings] twoSum World.empty).1 =
      .ok [exHost.Join yesSettings.ProjectRoot (Generate.dir yesSettings)
        (twoSum.TitleSlug ++ python3.extension)] ∧
    (Generate exHost { yesSettings with Now := "2023/01/02 03:05" }
        [python3.toGenerator { yesSettings with Now := "2023/01/02 03:05" }] twoSum
        (Generate exHost yesSettings [python3.toGenerator yesSettings] twoSum
          World.empty).2).1 =
      (Generate exHost yesSettings [python3.toGenerator yesSettings] twoSum World.empty).1 :=
  ⟨(regeneration_idempotent exHost yesSettings "2023/01/02 03:05"
      [python3.toGenerator yesSettings]
      [python3.toGenerator { yesSettings with Now := "2023/01/02 03:05" }] python3 twoSum
      World.empty rfl (fun _ _ => rfl) (fun _ _ _ => rfl) rfl rfl (by decide)).2.2.1,
    (regeneration_idempotent exHost yesSettings "2023/01/02 03:05"
      [python3.toGenerator yesSettings]
      [python3.toGenerator { yesSettings with Now := "2023/01/02 03:05" }] python3 twoSum
      World.empty rfl (fun _ _ => rfl) (fun _ _ _ => rfl) rfl rfl (by decide)).2.2.2.1⟩

/-! ## What a run leaves of the files it did not report -/

/-- Unless a write fails after the file was opened, a tryWrite call that does not report
the file written leaves the filesystem as it was. -/
theorem tryWrite_unwritten (h : Host) (s : Settings) (file content : String) (w : World)
    (hno : ∀ w1 f c err n, h.WriteFile w1 f c ≠ .writeFailed err n)
    (hnot : reportedWritten (tryWrite h s file content w).1 = false) :
    (tryWrite h s file content w).2.files = w.files := by
  rw [tryWrite_eq] at hnot ⊢
  have hf := confirmStep_files h s file ((w.log (.tryWrite file content)).log (.IsExist file))
  rcases hc : confirmStep h s file ((w.log (.tryWrite file content)).log (.IsExist file))
    with ⟨r, w1⟩
  rw [hc] at hf hnot
  simp only [World.log_files] at hf
  cases r with
  | error err => exact hf
  | ok write =>
    cases write with
    | false => exact hf
    | true =>
      simp only [Bool.not_true, Bool.false_eq_true, if_false] at hnot ⊢
      unfold performStep at hnot ⊢
      cases hmk : h.CreateIfNotExists (w1.log (.CreateIfNotExists file)) file with
      | some err => exact hf
      | none =>
        simp only [hmk] at hnot ⊢
        cases hw : h.WriteFile ((w1.log (.CreateIfNotExists file)).log
            (.WriteFile file content)) file content with
        | openFailed err => exact hf
        | writeFailed err n => exact absurd hw (hno _ _ _ _ _)
        | ok => simp [hw, reportedWritten] at hnot

theorem loop_acc_subset (h : Host) (s : Settings) (files : List FileOutput)
    (acc : List String) (w : World) (p : String) (hp : p ∈ acc) :
    p ∈ (Generate.loop h s (Generate.dir s) files acc w).1 := by
  rw [loop_acc]
  exact List.mem_append_left _ hp

/-- Unless a write fails after the file was opened, the write loop leaves every path it
does not return as it found it. -/
theorem loop_unlisted (h : Host) (s : Settings)
    (hno : ∀ w1 f c err n, h.WriteFile w1 f c ≠ .writeFailed err n)
    (files : List FileOutput) (acc : List String) (w : World) (p : String)
    (hp : p ∉ (Generate.loop h s (Generate.dir s) files acc w).1) :
    (Generate.loop h s (Generate.dir s) files acc w).2.files.lookup p = w.files.lookup p := by
  induction files generalizing acc w with
  | nil => simp [Generate.loop]
  | cons f files ih =>
    rw [loop_cons] at hp ⊢
    rw [ih _ _ hp, afterFile_files]
    by_cases hw : reportedWritten (tryWrite h s (resolvePath h s f) f.Content w).1 = true
    · have hne : p ≠ resolvePath h s f := by
        intro hc
        apply hp
        apply loop_acc_subset
        rw [if_pos hw, hc]
        exact List.mem_append_right _ (List.mem_singleton_self _)
      exact tryWrite_frame h s _ _ w p hne
    · simp only [Bool.not_eq_true] at hw
      rw [tryWrite_unwritten h s _ _ w hno hw]

set_option maxRecDepth 8000 in
/-- C17, counterexample. The second file of the batch did not exist before the run; its
directory creation succeeds and its write fails after the file was opened; the path is
not in the returned list, and after the run the file exists, empty. -/
theorem Generate_partial_write_counterexample :
    IsExist World.empty.files "/proj/py/b.txt" = false ∧
    (Generate secondWriteFails exSettings [multiFile] twoSum World.empty).1 =
      .ok ["/proj/py/a.txt", "/proj/py/c.txt"] ∧
    "/proj/py/b.txt" ∉ ["/proj/py/a.txt", "/proj/py/c.txt"] ∧
    Event.CreateIfNotExists "/proj/py/b.txt" ∈
      (Generate secondWriteFails exSettings [multiFile] twoSum World.empty).2.trace ∧
    (Generate secondWriteFails exSettings [multiFile] twoSum World.empty).2.files.lookup
      "/proj/py/b.txt" = some "" :=
  ⟨by decide, by decide, by decide, by decide, by decide⟩

/-- C17, amended. For a run of Generate in which the generator returned its batch: a path
that is not a resolved path of the batch is, after the run, as the generator left it; a
path that is not in the returned written list is, after the run, as the generator left
it, provided no write fails after the file was opened (such a write may leave a file
that is not listed truncated or partly written); and a default generator leaves the
filesystem in its pre-run state. -/
theorem Generate_unlisted_untouched (h : Host) (s : Settings) (reg : List Generator)
    (q : QuestionData) (w : World) (files : List FileOutput) (w0 : World)
    (hprep : Generate.prepare h s reg q w = (.ok files, w0)) :
    (∀ p, (∀ f ∈ files, p ≠ resolvePath h s f) →
      (Generate h s reg q w).2.files.lookup p = w0.files.lookup p) ∧
    ((∀ w1 f c err n, h.WriteFile w1 f c ≠ .writeFailed err n) →
      ∀ paths, (Generate h s reg q w).1 = .ok paths → ∀ p, p ∉ paths →
        (Generate h s reg q w).2.files.lookup p = w0.files.lookup p) ∧
    (∀ (l : baseLang) (s2 : Settings),
      GetGenerator h reg s.Gen = some (l.toGenerator s2) → w0.files = w.files) := by
  have hgen := Generate_of_prepare h s reg q w files w0 hprep
  refine ⟨?_, ?_, ?_⟩
  · intro p hp
    rw [hgen]
    exact loop_frame h s files [] w0 p hp
  · intro hno paths hpaths p hp
    rw [hgen] at hpaths ⊢
    simp only [Except.ok.injEq] at hpaths
    exact loop_unlisted h s hno files [] w0 p (by rw [hpaths]; exact hp)
  · intro l s2 hsel
    by_cases hsnip : q.GetCodeSnippet (l.toGenerator s2).Slug = ""
    · unfold Generate.prepare at hprep
      simp [hsel, hsnip] at hprep
    · have hprep2 := prepare_of_selected h s reg q w _ hsel hsnip
      rw [hprep] at hprep2
      simp only [baseLang.toGenerator, baseLang.CheckLibrary, if_true, baseLang.Generate,
        Prod.mk.injEq] at hprep2
      rw [hprep2.2]

set_option maxRecDepth 8000 in
/-- Witness of C17 amended: the existing first file is declined and keeps its content. -/
theorem Generate_unlisted_untouched_witness :
    (Generate declines exSettings [multiFile] twoSum worldWithA).2.files.lookup
      "/proj/py/a.txt" = some "old" := by
  have hprep : Generate.prepare declines exSettings [multiFile] twoSum worldWithA =
      (.ok [{ Path := "a.txt", Content := "A" }, { Path := "b.txt", Content := "B" },
            { Path := "c.txt", Content := "C" }],
        { files := [("/proj/py/a.txt", "old")],
          trace := [.CheckLibrary, .GeneratorGenerate] }) := by decide
  exact (Generate_unlisted_untouched declines exSettings [multiFile] twoSum worldWithA _ _
    hprep).2.1 (fun _ _ _ _ _ => by simp [declines, exHost])
    ["/proj/py/b.txt", "/proj/py/c.txt"] (by decide) "/proj/py/a.txt" (by decide)

/-! ## The edit command -/

/-- C18. When the lookup is made (a generator is selected) and returns more than one
question, the handler returns the error "multiple questions found" having called nothing
but the lookup: neither the path-only resolver nor the editor. In every run, a call of the
path-only resolver is made on the single element of a one-element lookup result. -/
theorem edit_multiple_questions (h : Host) (reg : List Generator) (env : EditEnv)
    (qid : String) (gen : Generator) (qs : List QuestionData)
    (hgen : GetGenerator h reg env.Lang = some gen) (hqs : env.ParseQID qid = .ok qs)
    (hmany : 1 < qs.length) :
    editCmd.RunE h reg env qid =
      (.returned (some "multiple questions found"), [.ParseQID qid]) ∧
    (editCmd.RunE h reg env qid).2.filterMap EditEvent.resolved? = [] ∧
    (editCmd.RunE h reg env qid).2.all (fun e => !e.isOpen) = true ∧
    (∀ (h2 : Host) (reg2 : List Generator) (env2 : EditEnv) (qid2 : String) (q : QuestionData),
      EditEvent.GeneratePathsOnly q ∈ (editCmd.RunE h2 reg2 env2 qid2).2 →
      env2.ParseQID qid2 = .ok [q]) := by
  have hrun : editCmd.RunE h reg env qid =
      (.returned (some "multiple questions found"), [.ParseQID qid]) := by
    unfold editCmd.RunE
    simp only [hgen, hqs]
    rw [if_pos (by simpa using hmany)]
  refine ⟨hrun, by rw [hrun]; rfl, by rw [hrun]; rfl, ?_⟩
  intro h2 reg2 env2 qid2 q hmem
  unfold editCmd.RunE at hmem
  cases hg : GetGenerator h2 reg2 env2.Lang with
  | none => simp [hg] at hmem
  | some g =>
    cases hp : env2.ParseQID qid2 with
    | error err => simp [hg, hp] at hmem
    | ok qs2 =>
      simp only [hg, hp] at hmem
      by_cases hlen : qs2.length > 1
      · simp [hlen] at hmem
      · simp only [hlen, if_false] at hmem
        cases qs2 with
        | nil => simp at hmem
        | cons q0 rest =>
          have hrest : rest = [] := by
            cases rest with
            | nil => rfl
            | cons a b => simp at hlen
          subst hrest
          simp only at hmem
          cases hr : env2.GeneratePathsOnly q0 with
          | error err =>
            simp [hr] at hmem
            rw [hmem]
          | ok fs =>
            simp [hr] at hmem
            rw [hmem]

/-- Witness of C18: the lookup returns two-sum twice. -/
theorem edit_multiple_questions_witness :
    editCmd.RunE exHost exRegistry (exEditEnv [twoSum, twoSum]) "two-sum" =
      (.returned (some "multiple questions found"), [.ParseQID "two-sum"]) :=
  (edit_multiple_questions exHost exRegistry (exEditEnv [twoSum, twoSum]) "two-sum"
    (python3.toGenerator exSettings) [twoSum, twoSum] rfl rfl (by decide)).1

/-- C20, the code at the failing input. The lookup returns an empty list with a nil error;
the handler passes the guard on more than one question and indexes the empty list: the
run ends in a runtime panic, not in an error, and the resolver is not called. -/
theorem edit_empty_lookup_panics :
    (exEditEnv []).ParseQID "two-sum" = .ok [] ∧
    editCmd.RunE exHost exRegistry (exEditEnv []) "two-sum" =
      (.panicked "runtime error: index out of range [0] with length 0",
        [.ParseQID "two-sum"]) :=
  ⟨rfl, rfl⟩

end lang
